import Mathlib

/-!
# CHIP-8 interpreter core (newgan/chip8emu): shallow embedding and verified properties

The embedding follows `src/cpu.h` and `src/cpu.cpp`.

* Fixed-width machine integers are natural numbers; every store into a
  `uint8_t` / `uint16_t` / `uint32_t` location whose right-hand side is computed
  in `int` goes through `u8` / `u16` / `u32` (or `u8s` / `u16s` when the
  intermediate `int` may be negative).
* The `std::array` members are total functions on indices; an access whose index
  the C++ code does not keep inside the array by construction is guarded and
  yields a `Fault` (the C++ behaviour there is undefined).  Register indices
  come from the 4-bit opcode fields `x`, `y` or are the literal `0xF`, so
  register accesses carry no guard.
* `for` loops are recursions on the number of iterations still to run, carrying
  the loop variable explicitly.
-/

namespace Chip8

/-! ## Machine integers and arrays -/

/-- Conversion of a non-negative `int` to `uint8_t`. -/
def u8 (n : Nat) : Nat := n % 256

/-- Conversion of a non-negative `int` to `uint16_t`. -/
def u16 (n : Nat) : Nat := n % 65536

/-- Conversion of a non-negative value to `uint32_t`. -/
def u32 (n : Nat) : Nat := n % 4294967296

/-- Conversion of a possibly negative `int` to `uint8_t` (reduction modulo 256). -/
def u8s (z : Int) : Nat := (z % 256).toNat

/-- Conversion of a possibly negative `int` to `uint16_t` (reduction modulo 65536). -/
def u16s (z : Int) : Nat := (z % 65536).toNat

/-- Array store `a[i] = v` on an array seen as a function of the index. -/
def write {α : Type} (a : Nat → α) (i : Nat) (v : α) : Nat → α :=
  fun j => if j = i then v else a j

/-- Undefined behaviour of the C++ code: an array access outside the array. -/
inductive Fault where
  | ram_oob
  | frame_buffer_oob
  | stack_oob
  | keypad_oob
  deriving DecidableEq, Repr

/-! ## `class Opcode` -/

/-- The 16-bit instruction word, `class Opcode`. -/
structure Opcode where
  opcode : Nat
  deriving DecidableEq, Repr

namespace Opcode

/-- Source: `uint16_t msb() { return opcode & 0xF000; }`. -/
def msb (o : Opcode) : Nat := u16 (o.opcode &&& 0xF000)

/-- Source: `uint16_t nnn() { return opcode & 0x0FFF; }`. -/
def nnn (o : Opcode) : Nat := u16 (o.opcode &&& 0x0FFF)

/-- Source: `uint8_t n() { return opcode & 0x000F; }`. -/
def n (o : Opcode) : Nat := u8 (o.opcode &&& 0x000F)

/-- Source: `uint8_t x() { return (opcode & 0x0F00) >> 8; }`. -/
def x (o : Opcode) : Nat := u8 ((o.opcode &&& 0x0F00) >>> 8)

/-- Source: `uint8_t y() { return (opcode & 0x00F0) >> 4; }`. -/
def y (o : Opcode) : Nat := u8 ((o.opcode &&& 0x00F0) >>> 4)

/-- Source: `uint8_t kk() { return opcode & 0x00FF; }`. -/
def kk (o : Opcode) : Nat := u8 (o.opcode &&& 0x00FF)

/-- Source: `uint16_t data() { return opcode; }`. -/
def data (o : Opcode) : Nat := o.opcode

end Opcode

/-! ## `class CPU` -/

/-- Width of the screen, `screen_width`. -/
def screen_width : Nat := 64

/-- Height of the screen, `screen_height`. -/
def screen_height : Nat := 32

/-- Number of frame-buffer cells, `screen_pixel_count`. -/
def screen_pixel_count : Nat := screen_width * screen_height

/-- The data members of `class CPU`. -/
structure CPU where
  V : Nat → Nat
  delay_timer : Nat
  sound_timer : Nat
  pc : Nat
  I : Nat
  sp : Nat
  stack : Nat → Nat
  ram : Nat → Nat
  frame_buffer : Nat → Nat
  pixel_buffer : Nat → Nat
  keys : Nat → Nat
  cur_opcode : Opcode
  should_redraw : Bool
  keypad : Nat → Bool

/-- Range of every member of a `CPU` value as fixed by its C++ type. -/
structure CPU.WF (s : CPU) : Prop where
  V_lt : ∀ i, s.V i < 256
  delay_timer_lt : s.delay_timer < 256
  sound_timer_lt : s.sound_timer < 256
  pc_lt : s.pc < 65536
  I_lt : s.I < 65536
  sp_lt : s.sp < 65536
  stack_lt : ∀ i, s.stack i < 65536
  ram_lt : ∀ i, s.ram i < 256
  frame_buffer_lt : ∀ i, s.frame_buffer i < 256
  pixel_buffer_lt : ∀ i, s.pixel_buffer i < 4294967296
  keys_lt : ∀ i, s.keys i < 256
  opcode_lt : s.cur_opcode.opcode < 65536

namespace CPU

/-! ## Instruction handlers of `cpu.h` -/

/-- Source: `CLS` (00E0): `std::fill(frame_buffer.begin(), frame_buffer.end(), 0)`, then
`should_redraw = true`. -/
def CLS (s : CPU) : CPU :=
  { s with
    frame_buffer := fun j => if j < screen_pixel_count then 0 else s.frame_buffer j
    should_redraw := true }

/-- Source: `RET` (00EE): `sp--; pc = stack[sp];`. -/
def RET (s : CPU) : Except Fault CPU :=
  let s1 := { s with sp := u16s ((s.sp : Int) - 1) }
  if s1.sp < 16 then .ok { s1 with pc := s1.stack s1.sp } else .error .stack_oob

/-- Source: `JMP` (1nnn): `pc = cur_opcode.nnn();`. -/
def JMP (s : CPU) : CPU :=
  { s with pc := s.cur_opcode.nnn }

/-- Source: `CALL` (2nnn): `stack[sp] = pc; sp++; pc = cur_opcode.nnn();`. -/
def CALL (s : CPU) : Except Fault CPU :=
  if s.sp < 16 then
    let s1 := { s with stack := write s.stack s.sp s.pc }
    let s2 := { s1 with sp := u16 (s1.sp + 1) }
    .ok { s2 with pc := s2.cur_opcode.nnn }
  else .error .stack_oob

/-- Source: `SE_Vx` (3xkk): `if (V[x] == kk) pc += 2;`. -/
def SE_Vx (s : CPU) : CPU :=
  if s.V s.cur_opcode.x = s.cur_opcode.kk then { s with pc := u16 (s.pc + 2) } else s

/-- Source: `SNE_Vx` (4xkk): `if (V[x] != kk) pc += 2;`. -/
def SNE_Vx (s : CPU) : CPU :=
  if s.V s.cur_opcode.x ≠ s.cur_opcode.kk then { s with pc := u16 (s.pc + 2) } else s

/-- Source: `SE_Vx_Vy` (5xy0): `if (V[x] == V[y]) pc += 2;`. -/
def SE_Vx_Vy (s : CPU) : CPU :=
  if s.V s.cur_opcode.x = s.V s.cur_opcode.y then { s with pc := u16 (s.pc + 2) } else s

/-- Source: `LD_Vx` (6xkk): `V[x] = kk;`. -/
def LD_Vx (s : CPU) : CPU :=
  { s with V := write s.V s.cur_opcode.x s.cur_opcode.kk }

/-- Source: `ADD_Vx` (7xkk): `V[x] += kk;`. -/
def ADD_Vx (s : CPU) : CPU :=
  { s with V := write s.V s.cur_opcode.x (u8 (s.V s.cur_opcode.x + s.cur_opcode.kk)) }

/-- Source: `LD_Vx_Vy` (8xy0): `V[x] = V[y]; V[0xF] = 0;`. -/
def LD_Vx_Vy (s : CPU) : CPU :=
  let s1 := { s with V := write s.V s.cur_opcode.x (s.V s.cur_opcode.y) }
  { s1 with V := write s1.V 0xF 0 }

/-- Source: `OR_Vx_Vy` (8xy1): `V[x] |= V[y]; V[0xF] = 0;`. -/
def OR_Vx_Vy (s : CPU) : CPU :=
  let s1 := { s with V := write s.V s.cur_opcode.x (u8 (s.V s.cur_opcode.x ||| s.V s.cur_opcode.y)) }
  { s1 with V := write s1.V 0xF 0 }

/-- Source: `AND_Vx_Vy` (8xy2): `V[x] &= V[y]; V[0xF] = 0;`. -/
def AND_Vx_Vy (s : CPU) : CPU :=
  let s1 := { s with V := write s.V s.cur_opcode.x (u8 (s.V s.cur_opcode.x &&& s.V s.cur_opcode.y)) }
  { s1 with V := write s1.V 0xF 0 }

/-- Source: `XOR_Vx_Vy` (8xy3): `V[x] ^= V[y]; V[0xF] = 0;`. -/
def XOR_Vx_Vy (s : CPU) : CPU :=
  let s1 := { s with V := write s.V s.cur_opcode.x (u8 (s.V s.cur_opcode.x ^^^ s.V s.cur_opcode.y)) }
  { s1 with V := write s1.V 0xF 0 }

/-- Source: `ADD_Vx_Vy` (8xy4): `int sum = V[x] + V[y]; V[x] = sum & 0xFF; V[0xF] = sum > 0xFF;`. -/
def ADD_Vx_Vy (s : CPU) : CPU :=
  let sum := s.V s.cur_opcode.x + s.V s.cur_opcode.y
  let s1 := { s with V := write s.V s.cur_opcode.x (u8 (sum &&& 0xFF)) }
  { s1 with V := write s1.V 0xF (if sum > 0xFF then 1 else 0) }

/-- Source: `SUB_Vx_Vy` (8xy5): `bool comp = V[y] < V[x]; V[x] = V[x] - V[y]; V[0xF] = comp;`. -/
def SUB_Vx_Vy (s : CPU) : CPU :=
  let comp : Bool := decide (s.V s.cur_opcode.y < s.V s.cur_opcode.x)
  let s1 := { s with
    V := write s.V s.cur_opcode.x (u8s ((s.V s.cur_opcode.x : Int) - (s.V s.cur_opcode.y : Int))) }
  { s1 with V := write s1.V 0xF (if comp then 1 else 0) }

/-- Source: `SHR_Vx_Vy` (8xy6): `uint8_t Vf = V[x] & 1; V[x] = V[y]; V[x] >>= 1; V[0xF] = Vf;`. -/
def SHR_Vx_Vy (s : CPU) : CPU :=
  let Vf := u8 (s.V s.cur_opcode.x &&& 1)
  let s1 := { s with V := write s.V s.cur_opcode.x (s.V s.cur_opcode.y) }
  let s2 := { s1 with V := write s1.V s1.cur_opcode.x (u8 (s1.V s1.cur_opcode.x >>> 1)) }
  { s2 with V := write s2.V 0xF Vf }

/-- Source: `SUBN_Vx_Vy` (8xy7): `bool comp = V[y] > V[x]; V[x] = V[y] - V[x]; V[0xF] = comp;`. -/
def SUBN_Vx_Vy (s : CPU) : CPU :=
  let comp : Bool := decide (s.V s.cur_opcode.y > s.V s.cur_opcode.x)
  let s1 := { s with
    V := write s.V s.cur_opcode.x (u8s ((s.V s.cur_opcode.y : Int) - (s.V s.cur_opcode.x : Int))) }
  { s1 with V := write s1.V 0xF (if comp then 1 else 0) }

/-- Source: `SHL_Vx_Vy` (8xyE): `uint8_t Vf = V[x] >> 7; V[x] = V[y]; V[x] <<= 1; V[0xF] = Vf;`. -/
def SHL_Vx_Vy (s : CPU) : CPU :=
  let Vf := u8 (s.V s.cur_opcode.x >>> 7)
  let s1 := { s with V := write s.V s.cur_opcode.x (s.V s.cur_opcode.y) }
  let s2 := { s1 with V := write s1.V s1.cur_opcode.x (u8 (s1.V s1.cur_opcode.x <<< 1)) }
  { s2 with V := write s2.V 0xF Vf }

/-- Source: `SNE_Vx_Vy` (9xy0): `if (V[x] != V[y]) pc += 2;`. -/
def SNE_Vx_Vy (s : CPU) : CPU :=
  if s.V s.cur_opcode.x ≠ s.V s.cur_opcode.y then { s with pc := u16 (s.pc + 2) } else s

/-- Source: `LD_I` (Annn): `I = cur_opcode.nnn();`. -/
def LD_I (s : CPU) : CPU :=
  { s with I := s.cur_opcode.nnn }

/-- Source: `JP_V0` (Bnnn): `pc = cur_opcode.nnn() + V[0];`. -/
def JP_V0 (s : CPU) : CPU :=
  { s with pc := u16 (s.cur_opcode.nnn + s.V 0) }

/-- Source: `RND_Vx` (Cxkk): `V[x] = rand() % 256 & cur_opcode.kk();`; the value returned by
`rand()` is the argument `rnd`. -/
def RND_Vx (rnd : Nat) (s : CPU) : CPU :=
  { s with V := write s.V s.cur_opcode.x (u8 ((rnd % 256) &&& s.cur_opcode.kk)) }

/-- Source: the inner loop of `DRW_Vx_Vy`,
`for (int x_coord = 0; x_coord < width; x_coord++) { ... }`, with `k` iterations still to run
and the loop variable at `x_coord`:
`auto col = x_coord + vx; if (col >= screen_width) continue;`
`if ((pixel & (0x80 >> x_coord)) > 0) {`
`  auto screen_pos = row * screen_width + col;`
`  if (frame_buffer[screen_pos]) V[0xF] = 1;`
`  frame_buffer[screen_pos] ^= 1; }`. -/
def DRW_cols (pixel row vx : Nat) : Nat → Nat → CPU → Except Fault CPU
  | 0, _, s => .ok s
  | k + 1, x_coord, s =>
    let col := x_coord + vx
    if col ≥ screen_width then
      DRW_cols pixel row vx k (x_coord + 1) s
    else if (pixel &&& (0x80 >>> x_coord)) > 0 then
      let screen_pos := row * screen_width + col
      if screen_pos < screen_pixel_count then
        let s1 := if s.frame_buffer screen_pos ≠ 0 then { s with V := write s.V 0xF 1 } else s
        let s2 := { s1 with
          frame_buffer := write s1.frame_buffer screen_pos (u8 (s1.frame_buffer screen_pos ^^^ 1)) }
        DRW_cols pixel row vx k (x_coord + 1) s2
      else .error .frame_buffer_oob
    else
      DRW_cols pixel row vx k (x_coord + 1) s

/-- Source: the outer loop of `DRW_Vx_Vy`,
`for (int y_coord = 0; y_coord < height; y_coord++) { ... }`, with `k` iterations still to run
and the loop variable at `y_coord`:
`pixel = ram[I + y_coord]; auto row = y_coord + vy; if (row >= screen_height) break;`
followed by the inner loop over the eight columns. -/
def DRW_rows (vx vy : Nat) : Nat → Nat → CPU → Except Fault CPU
  | 0, _, s => .ok s
  | k + 1, y_coord, s =>
    if s.I + y_coord < 0x1000 then
      let pixel := s.ram (s.I + y_coord)
      let row := y_coord + vy
      if row ≥ screen_height then
        .ok s
      else
        match DRW_cols pixel row vx 8 0 s with
        | .ok s1 => DRW_rows vx vy k (y_coord + 1) s1
        | .error e => .error e
    else .error .ram_oob

/-- Source: `DRW_Vx_Vy` (Dxyn): `int height = cur_opcode.n();`
`uint8_t vx = V[x] % screen_width; uint8_t vy = V[y] % screen_height; V[0xF] = 0;`
then the two nested loops, then `should_redraw = true`. -/
def DRW_Vx_Vy (s : CPU) : Except Fault CPU :=
  let height := s.cur_opcode.n
  let vx := u8 (s.V s.cur_opcode.x % screen_width)
  let vy := u8 (s.V s.cur_opcode.y % screen_height)
  let s1 := { s with V := write s.V 0xF 0 }
  match DRW_rows vx vy height 0 s1 with
  | .ok s2 => .ok { s2 with should_redraw := true }
  | .error e => .error e

/-- Source: `SKP_Vx` (Ex9E): `if (keypad[V[x]]) pc += 2;`. -/
def SKP_Vx (s : CPU) : Except Fault CPU :=
  if s.V s.cur_opcode.x < 0x10 then
    if s.keypad (s.V s.cur_opcode.x) then .ok { s with pc := u16 (s.pc + 2) } else .ok s
  else .error .keypad_oob

/-- Source: `SKNP_Vx` (ExA1): `if (!keypad[V[x]]) pc += 2;`. -/
def SKNP_Vx (s : CPU) : Except Fault CPU :=
  if s.V s.cur_opcode.x < 0x10 then
    if !s.keypad (s.V s.cur_opcode.x) then .ok { s with pc := u16 (s.pc + 2) } else .ok s
  else .error .keypad_oob

/-- Source: `LD_Vx_DT` (Fx07): `V[x] = delay_timer;`. -/
def LD_Vx_DT (s : CPU) : CPU :=
  { s with V := write s.V s.cur_opcode.x s.delay_timer }

/-- Source: the loop of `LD_Vx_K`, `for (auto i = 0; i < 0x0F; ++i) { ... }`, with `k`
iterations still to run and the loop variable at `i`:
`if (keypad[V[x]]) { V[x] = i; pc += 2; }`. -/
def LD_Vx_K_loop : Nat → Nat → CPU → Except Fault CPU
  | 0, _, s => .ok s
  | k + 1, i, s =>
    if s.V s.cur_opcode.x < 0x10 then
      if s.keypad (s.V s.cur_opcode.x) then
        let s1 := { s with V := write s.V s.cur_opcode.x (u8 i) }
        let s2 := { s1 with pc := u16 (s1.pc + 2) }
        LD_Vx_K_loop k (i + 1) s2
      else
        LD_Vx_K_loop k (i + 1) s
    else .error .keypad_oob

/-- Source: `LD_Vx_K` (Fx0A): `pc -= 2;` followed by the loop over `i = 0 .. 0x0E`. -/
def LD_Vx_K (s : CPU) : Except Fault CPU :=
  let s1 := { s with pc := u16s ((s.pc : Int) - 2) }
  LD_Vx_K_loop 0x0F 0 s1

/-- Source: `LD_DT_Vx` (Fx15): `delay_timer = V[x];`. -/
def LD_DT_Vx (s : CPU) : CPU :=
  { s with delay_timer := s.V s.cur_opcode.x }

/-- Source: `LD_ST_Vx` (Fx18): `sound_timer = V[x];`. -/
def LD_ST_Vx (s : CPU) : CPU :=
  { s with sound_timer := s.V s.cur_opcode.x }

/-- Source: `ADD_I_Vx` (Fx1E): `I += V[x];`. -/
def ADD_I_Vx (s : CPU) : CPU :=
  { s with I := u16 (s.I + s.V s.cur_opcode.x) }

/-- Source: `LD_F_Vx` (Fx29): `I = V[x] * 5;`. -/
def LD_F_Vx (s : CPU) : CPU :=
  { s with I := u16 (s.V s.cur_opcode.x * 5) }

/-- Source: `LD_B_Vx` (Fx33): `ram[I] = V[x] / 100; ram[I + 1] = (V[x] / 10) % 10;`
`ram[I + 2] = V[x] % 10;`. -/
def LD_B_Vx (s : CPU) : Except Fault CPU :=
  if s.I < 0x1000 then
    let s1 := { s with ram := write s.ram s.I (u8 (s.V s.cur_opcode.x / 100)) }
    if s1.I + 1 < 0x1000 then
      let s2 := { s1 with ram := write s1.ram (s1.I + 1) (u8 ((s1.V s1.cur_opcode.x / 10) % 10)) }
      if s2.I + 2 < 0x1000 then
        .ok { s2 with ram := write s2.ram (s2.I + 2) (u8 (s2.V s2.cur_opcode.x % 10)) }
      else .error .ram_oob
    else .error .ram_oob
  else .error .ram_oob

/-- Source: the loop of `LD_I_Vx`, `for (int i = 0; i <= cur_opcode.x(); i++)`, with `k`
iterations still to run and the loop variable at `i`: `ram[I + i] = V[i];`. -/
def LD_I_Vx_loop : Nat → Nat → CPU → Except Fault CPU
  | 0, _, s => .ok s
  | k + 1, i, s =>
    if s.I + i < 0x1000 then
      LD_I_Vx_loop k (i + 1) { s with ram := write s.ram (s.I + i) (s.V i) }
    else .error .ram_oob

/-- Source: `LD_I_Vx` (Fx55): the store loop over `i = 0 .. x`, then `I += cur_opcode.x() + 1;`. -/
def LD_I_Vx (s : CPU) : Except Fault CPU :=
  match LD_I_Vx_loop (s.cur_opcode.x + 1) 0 s with
  | .ok s1 => .ok { s1 with I := u16 (s1.I + (s1.cur_opcode.x + 1)) }
  | .error e => .error e

/-- Source: the loop of `LD_Vx_I`, `for (int i = 0; i <= cur_opcode.x(); i++)`, with `k`
iterations still to run and the loop variable at `i`: `V[i] = ram[I + i];`. -/
def LD_Vx_I_loop : Nat → Nat → CPU → Except Fault CPU
  | 0, _, s => .ok s
  | k + 1, i, s =>
    if s.I + i < 0x1000 then
      LD_Vx_I_loop k (i + 1) { s with V := write s.V i (s.ram (s.I + i)) }
    else .error .ram_oob

/-- Source: `LD_Vx_I` (Fx65): the load loop over `i = 0 .. x`, then `I += cur_opcode.x() + 1;`. -/
def LD_Vx_I (s : CPU) : Except Fault CPU :=
  match LD_Vx_I_loop (s.cur_opcode.x + 1) 0 s with
  | .ok s1 => .ok { s1 with I := u16 (s1.I + (s1.cur_opcode.x + 1)) }
  | .error e => .error e

/-! ## `cpu.cpp` -/

/-- Source: the font table `sprites` of `CPU::init`, 16 glyphs of 5 bytes. -/
def sprites : List Nat :=
  [0xF0, 0x90, 0x90, 0x90, 0xF0,
   0x20, 0x60, 0x20, 0x20, 0x70,
   0xF0, 0x10, 0xF0, 0x80, 0xF0,
   0xF0, 0x10, 0xF0, 0x10, 0xF0,
   0x90, 0x90, 0xF0, 0x10, 0x10,
   0xF0, 0x80, 0xF0, 0x10, 0xF0,
   0xF0, 0x80, 0xF0, 0x90, 0xF0,
   0xF0, 0x10, 0x20, 0x40, 0x40,
   0xF0, 0x90, 0xF0, 0x90, 0xF0,
   0xF0, 0x90, 0xF0, 0x10, 0xF0,
   0xF0, 0x90, 0xF0, 0x90, 0x90,
   0xE0, 0x90, 0xE0, 0x90, 0xE0,
   0xF0, 0x80, 0x80, 0x80, 0xF0,
   0xE0, 0x90, 0x90, 0x90, 0xE0,
   0xF0, 0x80, 0xF0, 0x80, 0xF0,
   0xF0, 0x80, 0xF0, 0x80, 0x80]

/-- Source: `CPU::init`: `std::copy(sprites.begin(), sprites.end(), ram.begin());`. -/
def init (s : CPU) : CPU :=
  { s with ram := fun j => if j < sprites.length then sprites.getD j 0 else s.ram j }

/-- Source: `CPU::fetch`: `Opcode opcode((ram[pc] << 8) | (ram[pc + 1])); pc += 2;`
`return opcode;`. -/
def fetch (s : CPU) : Except Fault (Opcode × CPU) :=
  if s.pc < 0x1000 ∧ s.pc + 1 < 0x1000 then
    let opcode : Opcode := ⟨u16 ((s.ram s.pc <<< 8) ||| s.ram (s.pc + 1))⟩
    .ok (opcode, { s with pc := u16 (s.pc + 2) })
  else .error .ram_oob

/-- Source: `CPU::update_timers`: `if (delay_timer > 0) delay_timer--;`
`if (sound_timer > 0) sound_timer--;`. -/
def update_timers (s : CPU) : CPU :=
  let s1 := if s.delay_timer > 0 then { s with delay_timer := u8s ((s.delay_timer : Int) - 1) } else s
  if s1.sound_timer > 0 then { s1 with sound_timer := u8s ((s1.sound_timer : Int) - 1) } else s1

/-- Source: the dispatch `switch` of `CPU::cycle` on `cur_opcode.msb()` and, inside the classes
`0x0000`, `0x8000`, `0xE000`, `0xF000`, on `nnn()`, `n()`, `kk()`, `kk()`; a selector without a
`case` leaves the state as it is.  The argument `rnd` is the value `rand()` returns. -/
def dispatch (rnd : Nat) (s : CPU) : Except Fault CPU :=
  let op := s.cur_opcode
  if op.msb = 0x0000 then
    if op.nnn = 0x0E0 then .ok (CLS s)
    else if op.nnn = 0x0EE then RET s
    else .ok s
  else if op.msb = 0x1000 then .ok (JMP s)
  else if op.msb = 0x2000 then CALL s
  else if op.msb = 0x3000 then .ok (SE_Vx s)
  else if op.msb = 0x4000 then .ok (SNE_Vx s)
  else if op.msb = 0x5000 then .ok (SE_Vx_Vy s)
  else if op.msb = 0x6000 then .ok (LD_Vx s)
  else if op.msb = 0x7000 then .ok (ADD_Vx s)
  else if op.msb = 0x8000 then
    if op.n = 0x0 then .ok (LD_Vx_Vy s)
    else if op.n = 0x1 then .ok (OR_Vx_Vy s)
    else if op.n = 0x2 then .ok (AND_Vx_Vy s)
    else if op.n = 0x3 then .ok (XOR_Vx_Vy s)
    else if op.n = 0x4 then .ok (ADD_Vx_Vy s)
    else if op.n = 0x5 then .ok (SUB_Vx_Vy s)
    else if op.n = 0x6 then .ok (SHR_Vx_Vy s)
    else if op.n = 0x7 then .ok (SUBN_Vx_Vy s)
    else if op.n = 0xE then .ok (SHL_Vx_Vy s)
    else .ok s
  else if op.msb = 0x9000 then .ok (SNE_Vx_Vy s)
  else if op.msb = 0xA000 then .ok (LD_I s)
  else if op.msb = 0xB000 then .ok (JP_V0 s)
  else if op.msb = 0xC000 then .ok (RND_Vx rnd s)
  else if op.msb = 0xD000 then DRW_Vx_Vy s
  else if op.msb = 0xE000 then
    if op.kk = 0x9E then SKP_Vx s
    else if op.kk = 0xA1 then SKNP_Vx s
    else .ok s
  else if op.msb = 0xF000 then
    if op.kk = 0x07 then .ok (LD_Vx_DT s)
    else if op.kk = 0x0A then LD_Vx_K s
    else if op.kk = 0x15 then .ok (LD_DT_Vx s)
    else if op.kk = 0x18 then .ok (LD_ST_Vx s)
    else if op.kk = 0x1E then .ok (ADD_I_Vx s)
    else if op.kk = 0x29 then .ok (LD_F_Vx s)
    else if op.kk = 0x33 then LD_B_Vx s
    else if op.kk = 0x55 then LD_I_Vx s
    else if op.kk = 0x65 then LD_Vx_I s
    else .ok s
  else .ok s

/-- Source: `CPU::cycle`: `cur_opcode = fetch();` followed by the dispatch `switch`. -/
def cycle (rnd : Nat) (s : CPU) : Except Fault CPU :=
  match fetch s with
  | .ok (opcode, s1) => dispatch rnd { s1 with cur_opcode := opcode }
  | .error e => .error e

/-! ## Concrete machine states on which the theorems are exercised -/

/-- A machine state with the given registers, address register, memory and current opcode;
every other member is zero and the program counter is at `0x200`. -/
def mkCPU (V : Nat → Nat) (I : Nat) (ram : Nat → Nat) (opcode : Nat) : CPU :=
  { V := V, delay_timer := 0, sound_timer := 0, pc := 0x200, I := I, sp := 0,
    stack := fun _ => 0, ram := ram, frame_buffer := fun _ => 0, pixel_buffer := fun _ => 0,
    keys := fun _ => 0, cur_opcode := ⟨opcode⟩, should_redraw := false,
    keypad := fun _ => false }

/-- A register file holding `a` in `V[0]`, `b` in `V[1]`, `f` in `V[0xF]` and zero elsewhere. -/
def regs (a b f : Nat) : Nat → Nat :=
  fun i => if i = 0 then a else if i = 1 then b else if i = 0xF then f else 0

/-- An all-zero memory. -/
def zeroRam : Nat → Nat := fun _ => 0

/-- The state `V[0] = 0xFF`, `V[1] = 0x01` about to run `8014` (add V1 to V0). -/
def addState : CPU := mkCPU (regs 0xFF 0x01 0) 0 zeroRam 0x8014

/-- The state `V[0] = 0x05`, `V[1] = 0x02` about to run `8015` (subtract V1 from V0). -/
def subState : CPU := mkCPU (regs 0x05 0x02 0) 0 zeroRam 0x8015

/-- The state `V[0] = 0x02`, `V[1] = 0x05` about to run `8015`. -/
def subBorrowState : CPU := mkCPU (regs 0x02 0x05 1) 0 zeroRam 0x8015

/-- The state `V[0] = 0x05`, `V[1] = 0x05` about to run `8015`. -/
def subEqualState : CPU := mkCPU (regs 0x05 0x05 1) 0 zeroRam 0x8015

/-- The state `V[0] = 0x03`, `V[1] = 0x05` about to run `8016` (shift right). -/
def shrState : CPU := mkCPU (regs 0x03 0x05 0) 0 zeroRam 0x8016

/-- The state `V[0] = 0x0C`, `V[1] = 0x0A`, `V[0xF] = 1` with the opcode `801n`. -/
def logicState (n : Nat) : CPU := mkCPU (regs 0x0C 0x0A 1) 0 zeroRam (0x8010 + n)

/-- The state `V[0] = 234`, `I = 0x300` about to run `F033` (store BCD of V0). -/
def bcdState : CPU := mkCPU (regs 234 0 0) 0x300 zeroRam 0xF033

/-- The state with `delay_timer = 1` and `sound_timer = 3`. -/
def timerState : CPU :=
  { mkCPU (regs 0 0 0) 0 zeroRam 0 with delay_timer := 1, sound_timer := 3 }

/-- The state `V[i] = i + 1` for the sixteen registers, `I = 0x300`, with the opcode `F355`
(store V0..V3). -/
def storeState : CPU := mkCPU (fun i => if i < 16 then i + 1 else 0) 0x300 zeroRam 0xF355

/-- The state `V[0] = 60`, `V[1] = 0`, `I = 0x300`, `ram[0x300] = 0xFF`, an all-zero frame
buffer, about to run `D011` (draw one sprite row at column 60, row 0). -/
def drawState : CPU :=
  mkCPU (regs 60 0 0) 0x300 (fun i => if i = 0x300 then 0xFF else 0) 0xD011

/-- The state `V[0] = 60`, `V[1] = 0`, `V[0xF] = 7`, `I = 0x300`,
`ram[0x300] = ram[0x301] = 0xFF`, with only the frame-buffer cell at row 0, column 61 lit,
about to run `D012` (draw two sprite rows at column 60, row 0). -/
def drawLitState : CPU :=
  { mkCPU (regs 60 0 7) 0x300 (fun i => if i = 0x300 ∨ i = 0x301 then 0xFF else 0) 0xD012 with
    frame_buffer := fun i => if i = 61 then 1 else 0 }

/-- Source: the driver loop of `main.cpp` calls `cpu.cycle()` again and again; `cycles rnd k`
is `k` successive calls of `cycle`, the `i`-th of them drawing `rnd i` from `rand()`, and stops
at the first fault. -/
def cycles (rnd : Nat → Nat) : Nat → CPU → Except Fault CPU
  | 0, s => .ok s
  | k + 1, s =>
    match cycle (rnd 0) s with
    | .ok s1 => cycles (fun i => rnd (i + 1)) k s1
    | .error e => .error e

/-- A memory holding the two bytes `hi`, `lo` at `0x200`, `0x201` and zero elsewhere. -/
def ramWithWord (hi lo : Nat) : Nat → Nat :=
  fun i => if i = 0x200 then hi else if i = 0x201 then lo else 0

/-- The state with `F00A` (wait for a key into V0) at `0x200`, `V[0] = 0`, and key 5 the only
key pressed. -/
def keyFiveState : CPU :=
  { mkCPU (regs 0 0 0) 0 (ramWithWord 0xF0 0x0A) 0 with keypad := fun i => decide (i = 5) }

/-- The state with `F00A` at `0x200`, `V[0] = 0xF`, and key `0xF` the only key pressed. -/
def keyFState : CPU :=
  { mkCPU (regs 0xF 0 0) 0 (ramWithWord 0xF0 0x0A) 0 with keypad := fun i => decide (i = 0xF) }

/-- The state with the word `8128` (class 8, no handler for `n = 8`) at `0x200`. -/
def unknownOpState : CPU := mkCPU (regs 3 4 5) 0 (ramWithWord 0x81 0x28) 0

/-- The state with `sp = 0`, `pc = 0x202`, about to run `2345` (call `0x345`). -/
def callState : CPU :=
  { mkCPU (regs 0 0 0) 0 zeroRam 0x2345 with pc := 0x202 }

/-- The state after `init` with no ROM loaded: font in `0x000 .. 0x04F`, zero elsewhere,
`pc = 0x200`. -/
def emptyRomState : CPU := init (mkCPU (regs 0 0 0) 0 zeroRam 0)

/-- The state with `D011` at `0x200`, the sprite byte `0xFF` at `0x300`, `I = 0x300`,
`V[0] = 60`, `V[1] = 0`, and an all-zero frame buffer. -/
def drawCycleState : CPU :=
  mkCPU (regs 60 0 0) 0x300
    (fun i => if i = 0x200 then 0xD0 else if i = 0x201 then 0x11 else
      if i = 0x300 then 0xFF else 0) 0

/-- The state with the program `AFFF` (`I = 0xFFF`), `6108` (`V[1] = 8`), `F155` (store V0..V1
at `I`) at `0x200`, `pc = 0x200`, and an all-zero frame buffer. -/
def storeOverrunState : CPU :=
  mkCPU (regs 0 0 0) 0
    (fun i => if i = 0x200 then 0xAF else if i = 0x201 then 0xFF else
      if i = 0x202 then 0x61 else if i = 0x203 then 0x08 else
      if i = 0x204 then 0xF1 else if i = 0x205 then 0x55 else 0) 0

end CPU

/-! ## Auxiliary facts -/

theorem u8_of_lt {n : Nat} (h : n < 256) : u8 n = n := Nat.mod_eq_of_lt h

theorem u8_lt (n : Nat) : u8 n < 256 := Nat.mod_lt _ (by decide)

theorem u16_of_lt {n : Nat} (h : n < 65536) : u16 n = n := Nat.mod_eq_of_lt h

theorem u8s_cast (z : Int) : ((u8s z : Nat) : Int) = z % 256 := by
  unfold u8s; omega

theorem write_same {α : Type} (a : Nat → α) (i : Nat) (v : α) : write a i v i = v := by
  simp [write]

theorem write_other {α : Type} (a : Nat → α) {i j : Nat} (v : α) (h : j ≠ i) :
    write a i v j = a j := by
  simp [write, h]

theorem Opcode.x_lt (o : Opcode) : o.x < 16 := by
  have h : o.opcode &&& 0x0F00 ≤ 0x0F00 := Nat.and_le_right
  unfold Opcode.x u8
  rw [Nat.shiftRight_eq_div_pow]
  omega

theorem Opcode.y_lt (o : Opcode) : o.y < 16 := by
  have h : o.opcode &&& 0x00F0 ≤ 0x00F0 := Nat.and_le_right
  unfold Opcode.y u8
  rw [Nat.shiftRight_eq_div_pow]
  omega

theorem Opcode.n_lt (o : Opcode) : o.n < 16 := by
  have h : o.opcode &&& 0x000F ≤ 0x000F := Nat.and_le_right
  unfold Opcode.n u8
  omega

namespace CPU

theorem regs_lt {a b f : Nat} (ha : a < 256) (hb : b < 256) (hf : f < 256) (i : Nat) :
    regs a b f i < 256 := by
  unfold regs
  split_ifs <;> omega

theorem mkCPU_WF {V : Nat → Nat} {I : Nat} {ram : Nat → Nat} {opcode : Nat}
    (hV : ∀ i, V i < 256) (hI : I < 65536) (hram : ∀ i, ram i < 256) (hop : opcode < 65536) :
    (mkCPU V I ram opcode).WF :=
  { V_lt := hV
    delay_timer_lt := by simp [mkCPU]
    sound_timer_lt := by simp [mkCPU]
    pc_lt := by simp [mkCPU]
    I_lt := hI
    sp_lt := by simp [mkCPU]
    stack_lt := by simp [mkCPU]
    ram_lt := hram
    frame_buffer_lt := by simp [mkCPU]
    pixel_buffer_lt := by simp [mkCPU]
    keys_lt := by simp [mkCPU]
    opcode_lt := hop }

theorem zeroRam_lt (i : Nat) : zeroRam i < 256 := by simp [zeroRam]

/-! ## C3: add registers (8xy4) -/

/-- C3: after `ADD_Vx_Vy`, `VF` is 1 when the original `V[x] + V[y]` exceeds 255 and 0 otherwise
(for every `x`, `y`); for `x ≠ 0xF`, `V[x]` is the original sum modulo 256 and every register
other than `V[x]` and `VF` is unchanged. -/
theorem ADD_Vx_Vy_carry (s : CPU) :
    (ADD_Vx_Vy s).V 0xF = (if s.V s.cur_opcode.x + s.V s.cur_opcode.y > 255 then 1 else 0) ∧
    (s.cur_opcode.x ≠ 0xF →
      (ADD_Vx_Vy s).V s.cur_opcode.x = (s.V s.cur_opcode.x + s.V s.cur_opcode.y) % 256 ∧
      ∀ i, i ≠ s.cur_opcode.x → i ≠ 0xF → (ADD_Vx_Vy s).V i = s.V i) := by
  refine ⟨by simp [ADD_Vx_Vy, write], fun hx => ⟨?_, fun i hi hF => ?_⟩⟩
  · have hm := Nat.and_pow_two_sub_one_eq_mod (s.V s.cur_opcode.x + s.V s.cur_opcode.y) 8
    simp only [Nat.reducePow, Nat.add_one_sub_one, Nat.reduceSub] at hm
    simp [ADD_Vx_Vy, write, hx, u8, hm]
  · simp [ADD_Vx_Vy, write, hi, hF]

/-- C3, exercised: with `V[0] = 0xFF`, `V[1] = 0x01` the add leaves `V[0] = 0x00`, `VF = 1`. -/
theorem ADD_Vx_Vy_carry_witness :
    addState.cur_opcode.x = 0 ∧ addState.cur_opcode.y = 1 ∧
    (ADD_Vx_Vy addState).V 0 = 0x00 ∧ (ADD_Vx_Vy addState).V 0xF = 1 := by
  have h := ADD_Vx_Vy_carry addState
  have hx : addState.cur_opcode.x = 0 := by decide
  have hy : addState.cur_opcode.y = 1 := by decide
  rw [hx, hy] at h
  refine ⟨hx, hy, ?_, ?_⟩
  · rw [(h.2 (by decide)).1]; decide
  · rw [h.1]; decide

/-! ## C4, C5: subtract registers (8xy5) -/

/-- C4: for `x ≠ 0xF`, after `SUB_Vx_Vy` the register `V[x]` is the original
`V[x] - V[y]` reduced modulo 256, and `VF` is 1 when the original `V[y]` is below the original
`V[x]` and 0 otherwise. -/
theorem SUB_Vx_Vy_result (s : CPU) (hx : s.cur_opcode.x ≠ 0xF) :
    (((SUB_Vx_Vy s).V s.cur_opcode.x : Nat) : Int)
      = ((s.V s.cur_opcode.x : Int) - (s.V s.cur_opcode.y : Int)) % 256 ∧
    (SUB_Vx_Vy s).V 0xF = (if s.V s.cur_opcode.y < s.V s.cur_opcode.x then 1 else 0) := by
  constructor
  · simp only [SUB_Vx_Vy, write, if_neg hx, if_true]
    exact u8s_cast _
  · simp [SUB_Vx_Vy, write]

/-- C4, exercised: `V[0] = 0x05`, `V[1] = 0x02` gives `V[0] = 0x03`, `VF = 1`. -/
theorem SUB_Vx_Vy_result_witness :
    subState.cur_opcode.x = 0 ∧ subState.cur_opcode.y = 1 ∧
    (SUB_Vx_Vy subState).V 0 = 0x03 ∧ (SUB_Vx_Vy subState).V 0xF = 1 := by
  have h := SUB_Vx_Vy_result subState (by decide)
  have hx : subState.cur_opcode.x = 0 := by decide
  have hy : subState.cur_opcode.y = 1 := by decide
  rw [hx, hy] at h
  refine ⟨hx, hy, ?_, ?_⟩
  · have h1 := h.1
    have e0 : subState.V 0 = 5 := by decide
    have e1 : subState.V 1 = 2 := by decide
    rw [e0, e1] at h1
    omega
  · rw [h.2]; decide

/-- C4, the borrow case evaluated: `V[0] = 0x02`, `V[1] = 0x05` gives `V[0] = 0xFD`,
`VF = 0`. -/
theorem SUB_Vx_Vy_borrow_example :
    (SUB_Vx_Vy subBorrowState).V 0 = 0xFD ∧ (SUB_Vx_Vy subBorrowState).V 0xF = 0 := by
  constructor <;> decide

/-- C5 as stated fails: with `V[0] = V[1] = 5` the subtraction does not borrow, the 8-bit
result `0` is the true difference, and yet `VF` is 0. -/
theorem SUB_Vx_Vy_equal_operands_flag :
    subEqualState.cur_opcode.x = 0 ∧ subEqualState.cur_opcode.y = 1 ∧
    subEqualState.V 0 ≥ subEqualState.V 1 ∧
    (((SUB_Vx_Vy subEqualState).V 0 : Nat) : Int)
      = (subEqualState.V 0 : Int) - (subEqualState.V 1 : Int) ∧
    (SUB_Vx_Vy subEqualState).V 0xF = 0 ∧
    ¬ ((SUB_Vx_Vy subEqualState).V 0xF = 1 ↔
        (((SUB_Vx_Vy subEqualState).V 0 : Nat) : Int)
          = (subEqualState.V 0 : Int) - (subEqualState.V 1 : Int)) := by
  have e0 : subEqualState.V 0 = 5 := by decide
  have e1 : subEqualState.V 1 = 5 := by decide
  have r0 : (SUB_Vx_Vy subEqualState).V 0 = 0 := by decide
  have rF : (SUB_Vx_Vy subEqualState).V 0xF = 0 := by decide
  refine ⟨by decide, by decide, by decide, ?_, rF, ?_⟩
  · rw [r0, e0, e1]; decide
  · rw [r0, rF, e0, e1]; decide

/-- C5, amended: for `x ≠ 0xF`, after `SUB_Vx_Vy` the flag `VF` is 1 exactly when the original
`V[x]` is strictly above the original `V[y]`, that is exactly when the 8-bit result equals the
true integer difference and that difference is not zero; `VF` is 0 exactly when the result
wrapped around or the two operands were equal. -/
theorem SUB_Vx_Vy_flag_strict (s : CPU) (hwf : s.WF) (hx : s.cur_opcode.x ≠ 0xF) :
    ((SUB_Vx_Vy s).V 0xF = 1 ↔
      ((((SUB_Vx_Vy s).V s.cur_opcode.x : Nat) : Int)
          = (s.V s.cur_opcode.x : Int) - (s.V s.cur_opcode.y : Int) ∧
        (s.V s.cur_opcode.x : Int) - (s.V s.cur_opcode.y : Int) ≠ 0)) ∧
    ((SUB_Vx_Vy s).V 0xF = 0 ↔
      ((((SUB_Vx_Vy s).V s.cur_opcode.x : Nat) : Int)
          ≠ (s.V s.cur_opcode.x : Int) - (s.V s.cur_opcode.y : Int) ∨
        s.V s.cur_opcode.x = s.V s.cur_opcode.y)) ∧
    ((SUB_Vx_Vy s).V 0xF = 1 ∨ (SUB_Vx_Vy s).V 0xF = 0) := by
  have hr : (((SUB_Vx_Vy s).V s.cur_opcode.x : Nat) : Int)
      = ((s.V s.cur_opcode.x : Int) - (s.V s.cur_opcode.y : Int)) % 256 := by
    simp only [SUB_Vx_Vy, write, if_neg hx, if_true]
    exact u8s_cast _
  have hf : (SUB_Vx_Vy s).V 0xF = (if s.V s.cur_opcode.y < s.V s.cur_opcode.x then 1 else 0) := by
    simp [SUB_Vx_Vy, write]
  have h1 := hwf.V_lt s.cur_opcode.x
  have h2 := hwf.V_lt s.cur_opcode.y
  rw [hr]
  by_cases hc : s.V s.cur_opcode.y < s.V s.cur_opcode.x
  · rw [if_pos hc] at hf
    refine ⟨?_, ?_, ?_⟩ <;> omega
  · rw [if_neg hc] at hf
    refine ⟨?_, ?_, ?_⟩ <;> omega

/-- C5 amended, exercised on `V[0] = 0x05`, `V[1] = 0x02` (flag 1) . -/
theorem SUB_Vx_Vy_flag_strict_witness :
    subState.WF ∧ subState.cur_opcode.x ≠ 0xF ∧ (SUB_Vx_Vy subState).V 0xF = 1 := by
  have hwf : subState.WF :=
    mkCPU_WF (regs_lt (by decide) (by decide) (by decide)) (by decide) zeroRam_lt (by decide)
  have h := SUB_Vx_Vy_flag_strict subState hwf (by decide)
  refine ⟨hwf, by decide, ?_⟩
  rcases h.2.2 with h1 | h0
  · exact h1
  · exact absurd h0 (by decide)

/-! ## C6: shift right (8xy6) -/

/-- C6: for `x ≠ 0xF`, after `SHR_Vx_Vy` the register `V[x]` is the original `V[y]` shifted
right by one and `VF` is bit 0 of the original `V[x]`. -/
theorem SHR_Vx_Vy_quirk (s : CPU) (hwf : s.WF) (hx : s.cur_opcode.x ≠ 0xF) :
    (SHR_Vx_Vy s).V s.cur_opcode.x = s.V s.cur_opcode.y >>> 1 ∧
    (SHR_Vx_Vy s).V 0xF = s.V s.cur_opcode.x % 2 ∧
    ((SHR_Vx_Vy s).V 0xF = 1 ↔ (s.V s.cur_opcode.x).testBit 0 = true) := by
  have hy := hwf.V_lt s.cur_opcode.y
  have hsh : s.V s.cur_opcode.y >>> 1 < 256 := by
    rw [Nat.shiftRight_eq_div_pow]; omega
  have hF : (SHR_Vx_Vy s).V 0xF = s.V s.cur_opcode.x % 2 := by
    have hm : s.V s.cur_opcode.x % 2 % 256 = s.V s.cur_opcode.x % 2 := by omega
    simp [SHR_Vx_Vy, write, u8, Nat.and_one_is_mod, hm]
  refine ⟨?_, hF, ?_⟩
  · simp only [SHR_Vx_Vy, write, if_neg hx, if_true]
    exact u8_of_lt hsh
  · rw [hF, Nat.testBit_zero]
    simp

/-- C6, exercised: `V[0] = 0x03`, `V[1] = 0x05`, `8016` gives `V[0] = 0x02`, `VF = 1`. -/
theorem SHR_Vx_Vy_quirk_witness :
    shrState.cur_opcode.x = 0 ∧ shrState.cur_opcode.y = 1 ∧
    (SHR_Vx_Vy shrState).V 0 = 0x02 ∧ (SHR_Vx_Vy shrState).V 0xF = 1 := by
  have hwf : shrState.WF :=
    mkCPU_WF (regs_lt (by decide) (by decide) (by decide)) (by decide) zeroRam_lt (by decide)
  have h := SHR_Vx_Vy_quirk shrState hwf (by decide)
  have hx : shrState.cur_opcode.x = 0 := by decide
  have hy : shrState.cur_opcode.y = 1 := by decide
  rw [hx, hy] at h
  refine ⟨hx, hy, ?_, ?_⟩
  · rw [h.1]; decide
  · rw [h.2.1]; decide

/-! ## C7: register copy, OR, AND, XOR (8xy0 .. 8xy3) -/

/-- C7: each of `LD_Vx_Vy`, `OR_Vx_Vy`, `AND_Vx_Vy`, `XOR_Vx_Vy` leaves `VF = 0` for every
`x`, `y` and every earlier `VF`; for `x ≠ 0xF` it leaves in `V[x]` the original `V[y]`,
`V[x] | V[y]`, `V[x] & V[y]`, `V[x] ^ V[y]` respectively, and every register other than
`V[x]` and `VF` as it was. -/
theorem logic_ops_reset_VF (s : CPU) (hwf : s.WF) :
    ((LD_Vx_Vy s).V 0xF = 0 ∧ (OR_Vx_Vy s).V 0xF = 0 ∧
      (AND_Vx_Vy s).V 0xF = 0 ∧ (XOR_Vx_Vy s).V 0xF = 0) ∧
    (s.cur_opcode.x ≠ 0xF →
      ((LD_Vx_Vy s).V s.cur_opcode.x = s.V s.cur_opcode.y ∧
        (OR_Vx_Vy s).V s.cur_opcode.x = s.V s.cur_opcode.x ||| s.V s.cur_opcode.y ∧
        (AND_Vx_Vy s).V s.cur_opcode.x = s.V s.cur_opcode.x &&& s.V s.cur_opcode.y ∧
        (XOR_Vx_Vy s).V s.cur_opcode.x = s.V s.cur_opcode.x ^^^ s.V s.cur_opcode.y) ∧
      ∀ i, i ≠ s.cur_opcode.x → i ≠ 0xF →
        (LD_Vx_Vy s).V i = s.V i ∧ (OR_Vx_Vy s).V i = s.V i ∧
        (AND_Vx_Vy s).V i = s.V i ∧ (XOR_Vx_Vy s).V i = s.V i) := by
  have hx := hwf.V_lt s.cur_opcode.x
  have hy := hwf.V_lt s.cur_opcode.y
  have hor : s.V s.cur_opcode.x ||| s.V s.cur_opcode.y < 256 :=
    @Nat.or_lt_two_pow _ _ 8 hx hy
  have hand : s.V s.cur_opcode.x &&& s.V s.cur_opcode.y < 256 :=
    @Nat.and_lt_two_pow _ _ 8 hy
  have hxor : s.V s.cur_opcode.x ^^^ s.V s.cur_opcode.y < 256 :=
    @Nat.xor_lt_two_pow _ _ 8 hx hy
  refine ⟨⟨?_, ?_, ?_, ?_⟩, fun hne => ⟨⟨?_, ?_, ?_, ?_⟩, fun i hi hF => ⟨?_, ?_, ?_, ?_⟩⟩⟩
  · simp [LD_Vx_Vy, write]
  · simp [OR_Vx_Vy, write]
  · simp [AND_Vx_Vy, write]
  · simp [XOR_Vx_Vy, write]
  · simp only [LD_Vx_Vy, write, if_neg hne, if_true]
  · simp only [OR_Vx_Vy, write, if_neg hne, if_true]
    exact u8_of_lt hor
  · simp only [AND_Vx_Vy, write, if_neg hne, if_true]
    exact u8_of_lt hand
  · simp only [XOR_Vx_Vy, write, if_neg hne, if_true]
    exact u8_of_lt hxor
  · simp only [LD_Vx_Vy, write, if_neg hi, if_neg hF]
  · simp only [OR_Vx_Vy, write, if_neg hi, if_neg hF]
  · simp only [AND_Vx_Vy, write, if_neg hi, if_neg hF]
  · simp only [XOR_Vx_Vy, write, if_neg hi, if_neg hF]

/-- C7, exercised: from `V[0] = 0x0C`, `V[1] = 0x0A`, `VF = 1` the four instructions leave
`VF = 0` and `V[0] = 0x0A`, `0x0E`, `0x08`, `0x06`. -/
theorem logic_ops_reset_VF_witness :
    (logicState 0).V 0xF = 1 ∧
    ((LD_Vx_Vy (logicState 0)).V 0xF = 0 ∧ (OR_Vx_Vy (logicState 0)).V 0xF = 0 ∧
      (AND_Vx_Vy (logicState 0)).V 0xF = 0 ∧ (XOR_Vx_Vy (logicState 0)).V 0xF = 0) ∧
    ((LD_Vx_Vy (logicState 0)).V 0 = 0x0A ∧ (OR_Vx_Vy (logicState 0)).V 0 = 0x0E ∧
      (AND_Vx_Vy (logicState 0)).V 0 = 0x08 ∧ (XOR_Vx_Vy (logicState 0)).V 0 = 0x06) := by
  have hwf : (logicState 0).WF :=
    mkCPU_WF (regs_lt (by decide) (by decide) (by decide)) (by decide) zeroRam_lt (by decide)
  have h := logic_ops_reset_VF (logicState 0) hwf
  have hx : (logicState 0).cur_opcode.x = 0 := by decide
  have hy : (logicState 0).cur_opcode.y = 1 := by decide
  rw [hx, hy] at h
  obtain ⟨h1, h2, h3, h4⟩ := (h.2 (by decide)).1
  refine ⟨by decide, h.1, ?_, ?_, ?_, ?_⟩
  · rw [h1]; decide
  · rw [h2]; decide
  · rw [h3]; decide
  · rw [h4]; decide

/-! ## C9: store BCD (Fx33) -/

/-- C9: with `I + 2 < 4096`, `LD_B_Vx` returns a state in which `ram[I]`, `ram[I+1]`,
`ram[I+2]` are the hundreds, tens and ones digits of `V[x]` (ranges 0..2, 0..9, 0..9, and
`100*ram[I] + 10*ram[I+1] + ram[I+2] = V[x]`), while every other RAM byte and every other
member of the state (`I` and the registers among them) is unchanged. -/
theorem LD_B_Vx_digits (s : CPU) (hwf : s.WF) (hI : s.I + 2 < 4096) :
    ∃ s1, LD_B_Vx s = .ok s1 ∧
      s1.ram s.I ≤ 2 ∧ s1.ram (s.I + 1) ≤ 9 ∧ s1.ram (s.I + 2) ≤ 9 ∧
      100 * s1.ram s.I + 10 * s1.ram (s.I + 1) + s1.ram (s.I + 2) = s.V s.cur_opcode.x ∧
      (∀ p, p ≠ s.I → p ≠ s.I + 1 → p ≠ s.I + 2 → s1.ram p = s.ram p) ∧
      s1 = { s with ram := s1.ram } := by
  have hv := hwf.V_lt s.cur_opcode.x
  have h0 : s.I < 4096 := by omega
  have h1 : s.I + 1 < 4096 := by omega
  have ha : u8 (s.V s.cur_opcode.x / 100) = s.V s.cur_opcode.x / 100 := u8_of_lt (by omega)
  have hb : u8 (s.V s.cur_opcode.x / 10 % 10) = s.V s.cur_opcode.x / 10 % 10 :=
    u8_of_lt (by omega)
  have hc : u8 (s.V s.cur_opcode.x % 10) = s.V s.cur_opcode.x % 10 := u8_of_lt (by omega)
  have hrun : LD_B_Vx s = .ok { s with
      ram := write (write (write s.ram s.I (s.V s.cur_opcode.x / 100)) (s.I + 1)
        (s.V s.cur_opcode.x / 10 % 10)) (s.I + 2) (s.V s.cur_opcode.x % 10) } := by
    simp only [LD_B_Vx, if_pos h0, if_pos h1, if_pos hI, ha, hb, hc]
  refine ⟨_, hrun, ?_, ?_, ?_, ?_, ?_, rfl⟩ <;> simp only [write]
  · simp; omega
  · simp; omega
  · simp; omega
  · simp; omega
  · intro p p0 p1 p2
    simp [p0, p1, p2]

/-- C9, exercised: `V[0] = 234`, `I = 0x300`, `F033` stores 2, 3, 4. -/
theorem LD_B_Vx_digits_witness :
    bcdState.V bcdState.cur_opcode.x = 234 ∧
    ∃ s1, LD_B_Vx bcdState = .ok s1 ∧
      s1.ram 0x300 = 2 ∧ s1.ram 0x301 = 3 ∧ s1.ram 0x302 = 4 := by
  have hwf : bcdState.WF :=
    mkCPU_WF (regs_lt (by decide) (by decide) (by decide)) (by decide) zeroRam_lt (by decide)
  obtain ⟨s1, h1, ha, hb, hc, hsum, -, -⟩ := LD_B_Vx_digits bcdState hwf (by decide)
  have hI : bcdState.I = 0x300 := rfl
  have hV : bcdState.V bcdState.cur_opcode.x = 234 := by decide
  rw [hI] at ha hb hc hsum
  rw [hV] at hsum
  norm_num at ha hb hc hsum
  refine ⟨hV, s1, h1, ?_, ?_, ?_⟩ <;> omega

/-! ## C10: timer tick -/

/-- One tick on in-range timers: each non-zero timer goes down by one, a zero timer stays, and
nothing else changes. -/
theorem update_timers_step (s : CPU) (hd : s.delay_timer < 256) (hs : s.sound_timer < 256) :
    update_timers s =
      { s with delay_timer := s.delay_timer - 1, sound_timer := s.sound_timer - 1 } := by
  have e1 : ∀ n : Nat, 0 < n → n < 256 → u8s ((n : Int) - 1) = n - 1 := by
    intro n h0 h1
    unfold u8s
    omega
  rcases s with ⟨V, d, t, pc, I, sp, st, ram, fb, pb, keys, op, rd, kp⟩
  simp only at hd hs
  unfold update_timers
  by_cases h1 : d > 0 <;> by_cases h2 : t > 0
  · simp only [if_pos h1, if_pos h2, e1 _ h1 hd, e1 _ h2 hs]
  · have h4 : t = 0 := by omega
    subst h4
    simp only [if_pos h1, if_neg h2, e1 _ h1 hd]
  · have h3 : d = 0 := by omega
    subst h3
    simp only [if_neg h1, if_pos h2, e1 _ h2 hs]
  · have h3 : d = 0 := by omega
    have h4 : t = 0 := by omega
    subst h3 h4
    simp only [if_neg h1, if_neg h2]

/-- C10: after `k` calls of `update_timers` from timers `d`, `s` (8-bit values) the delay timer
is `max (d - k) 0` and the sound timer is `max (s - k) 0` (truncated subtraction on naturals),
and no other member of the state has changed. -/
theorem update_timers_iterate (s : CPU) (hd : s.delay_timer < 256) (hs : s.sound_timer < 256)
    (k : Nat) :
    update_timers^[k] s =
      { s with delay_timer := s.delay_timer - k, sound_timer := s.sound_timer - k } := by
  induction k with
  | zero => rfl
  | succ k ih =>
    rw [Function.iterate_succ_apply', ih, update_timers_step _ (by simp; omega) (by simp; omega)]
    simp only [Nat.sub_sub]

/-- C10, exercised: `delay_timer = 1` is 0 after one tick and 0 after five more, while
`sound_timer = 3` goes 2 and then 0. -/
theorem update_timers_iterate_witness :
    timerState.delay_timer = 1 ∧ timerState.sound_timer = 3 ∧
    (update_timers^[1] timerState).delay_timer = 0 ∧
    (update_timers^[1] timerState).sound_timer = 2 ∧
    (update_timers^[6] timerState).delay_timer = 0 ∧
    (update_timers^[6] timerState).sound_timer = 0 := by
  have h1 := update_timers_iterate timerState (by decide) (by decide) 1
  have h6 := update_timers_iterate timerState (by decide) (by decide) 6
  rw [h1, h6]
  exact ⟨rfl, rfl, rfl, rfl, rfl, rfl⟩

/-! ## C8: store registers / load registers (Fx55, Fx65) -/

/-- The store loop of `LD_I_Vx`, run for `k` iterations from index `i` inside the memory,
writes `V[j]` to `ram[I + j]` for `i ≤ j < i + k` and nothing else. -/
theorem LD_I_Vx_loop_ok (k : Nat) : ∀ (i : Nat) (s : CPU), s.I + i + k ≤ 4096 →
    LD_I_Vx_loop k i s = .ok { s with
      ram := fun p => if s.I + i ≤ p ∧ p < s.I + i + k then s.V (p - s.I) else s.ram p } := by
  induction k with
  | zero =>
    intro i s _
    have e : (fun p => if s.I + i ≤ p ∧ p < s.I + i + 0 then s.V (p - s.I) else s.ram p)
        = s.ram := by
      funext p
      rw [if_neg (by omega)]
    simp only [LD_I_Vx_loop, e]
  | succ k ih =>
    intro i s h
    have hi : s.I + i < 0x1000 := by omega
    simp only [LD_I_Vx_loop, if_pos hi]
    rw [ih (i + 1) _ (by simp only; omega)]
    have e : (fun p => if s.I + (i + 1) ≤ p ∧ p < s.I + (i + 1) + k then s.V (p - s.I)
          else write s.ram (s.I + i) (s.V i) p)
        = (fun p => if s.I + i ≤ p ∧ p < s.I + i + (k + 1) then s.V (p - s.I) else s.ram p) := by
      funext p
      by_cases h1 : s.I + (i + 1) ≤ p ∧ p < s.I + (i + 1) + k
      · rw [if_pos h1, if_pos (by omega)]
      · rw [if_neg h1]
        by_cases h2 : p = s.I + i
        · rw [if_pos (by omega), h2, write_same]
          congr 1
          omega
        · rw [if_neg (by omega), write_other _ _ h2]
    simp only [e]

/-- The load loop of `LD_Vx_I`, run for `k` iterations from index `i` inside the memory,
reads `ram[I + j]` into `V[j]` for `i ≤ j < i + k` and changes nothing else. -/
theorem LD_Vx_I_loop_ok (k : Nat) : ∀ (i : Nat) (s : CPU), s.I + i + k ≤ 4096 →
    LD_Vx_I_loop k i s = .ok { s with
      V := fun j => if i ≤ j ∧ j < i + k then s.ram (s.I + j) else s.V j } := by
  induction k with
  | zero =>
    intro i s _
    have e : (fun j => if i ≤ j ∧ j < i + 0 then s.ram (s.I + j) else s.V j) = s.V := by
      funext j
      rw [if_neg (by omega)]
    simp only [LD_Vx_I_loop, e]
  | succ k ih =>
    intro i s h
    have hi : s.I + i < 0x1000 := by omega
    simp only [LD_Vx_I_loop, if_pos hi]
    rw [ih (i + 1) _ (by simp only; omega)]
    have e : (fun j => if i + 1 ≤ j ∧ j < i + 1 + k then s.ram (s.I + j)
          else write s.V i (s.ram (s.I + i)) j)
        = (fun j => if i ≤ j ∧ j < i + (k + 1) then s.ram (s.I + j) else s.V j) := by
      funext j
      by_cases h1 : i + 1 ≤ j ∧ j < i + 1 + k
      · rw [if_pos h1, if_pos (by omega)]
      · rw [if_neg h1]
        by_cases h2 : j = i
        · rw [if_pos (by omega), h2, write_same]
        · rw [if_neg (by omega), write_other _ _ h2]
    simp only [e]

/-- Closed form of `LD_I_Vx` when the `x + 1` bytes from `I` lie inside the memory. -/
theorem LD_I_Vx_ok (s : CPU) (h : s.I + s.cur_opcode.x < 4096) :
    LD_I_Vx s = .ok { s with
      ram := fun p => if s.I ≤ p ∧ p ≤ s.I + s.cur_opcode.x then s.V (p - s.I) else s.ram p
      I := s.I + s.cur_opcode.x + 1 } := by
  have hI : u16 (s.I + (s.cur_opcode.x + 1)) = s.I + s.cur_opcode.x + 1 := by
    unfold u16; omega
  have e : (fun p => if s.I + 0 ≤ p ∧ p < s.I + 0 + (s.cur_opcode.x + 1) then s.V (p - s.I)
        else s.ram p)
      = (fun p => if s.I ≤ p ∧ p ≤ s.I + s.cur_opcode.x then s.V (p - s.I) else s.ram p) := by
    funext p
    by_cases h1 : s.I ≤ p ∧ p ≤ s.I + s.cur_opcode.x
    · rw [if_pos h1, if_pos (by omega)]
    · rw [if_neg h1, if_neg (by omega)]
  rw [LD_I_Vx, LD_I_Vx_loop_ok _ 0 s (by omega)]
  simp only [hI, e]

/-- Closed form of `LD_Vx_I` when the `x + 1` bytes from `I` lie inside the memory. -/
theorem LD_Vx_I_ok (s : CPU) (h : s.I + s.cur_opcode.x < 4096) :
    LD_Vx_I s = .ok { s with
      V := fun j => if j ≤ s.cur_opcode.x then s.ram (s.I + j) else s.V j
      I := s.I + s.cur_opcode.x + 1 } := by
  have hI : u16 (s.I + (s.cur_opcode.x + 1)) = s.I + s.cur_opcode.x + 1 := by
    unfold u16; omega
  have e : (fun j => if 0 ≤ j ∧ j < 0 + (s.cur_opcode.x + 1) then s.ram (s.I + j) else s.V j)
      = (fun j => if j ≤ s.cur_opcode.x then s.ram (s.I + j) else s.V j) := by
    funext j
    by_cases h1 : j ≤ s.cur_opcode.x
    · rw [if_pos h1, if_pos (by omega)]
    · rw [if_neg h1, if_neg (by omega)]
  rw [LD_Vx_I, LD_Vx_I_loop_ok _ 0 s (by omega)]
  simp only [hI, e]

/-- C8: with `I = a` and `a + x < 4096`, `LD_I_Vx` returns a state `s1`; putting `I` back to
`a` and running `LD_Vx_I` with an opcode of the same `x` returns a state `s2` whose registers
are all equal to those before the store; `ram[a + i] = V[i]` for `0 ≤ i ≤ x` and no other RAM
byte is changed; and `I = a + x + 1` after each of the two instructions. -/
theorem store_load_roundtrip (s : CPU) (o2 : Opcode) (ho : o2.x = s.cur_opcode.x)
    (ha : s.I + s.cur_opcode.x < 4096) :
    ∃ s1 s2, LD_I_Vx s = .ok s1 ∧
      LD_Vx_I { s1 with I := s.I, cur_opcode := o2 } = .ok s2 ∧
      (∀ i, s2.V i = s.V i) ∧ (∀ i, s1.V i = s.V i) ∧
      (∀ i, i ≤ s.cur_opcode.x → s1.ram (s.I + i) = s.V i) ∧
      (∀ p, ¬ (s.I ≤ p ∧ p ≤ s.I + s.cur_opcode.x) → s1.ram p = s.ram p) ∧
      (∀ p, s2.ram p = s1.ram p) ∧
      s1.I = s.I + s.cur_opcode.x + 1 ∧ s2.I = s.I + s.cur_opcode.x + 1 := by
  refine ⟨_, _, LD_I_Vx_ok s ha, LD_Vx_I_ok _ (by simp only [ho]; omega), ?_⟩
  refine ⟨fun i => ?_, fun i => rfl, fun i hi => ?_, fun p hp => ?_, fun p => rfl, rfl, ?_⟩
  · simp only [ho]
    by_cases h1 : i ≤ s.cur_opcode.x
    · rw [if_pos h1, if_pos (by omega)]
      congr 1
      omega
    · rw [if_neg h1]
  · simp only
    rw [if_pos (by omega)]
    congr 1
    omega
  · simp only
    rw [if_neg (by omega)]
  · simp only [ho]

/-- C8, exercised: `V[i] = i + 1`, `I = 0x300`, `x = 3`: the store puts 1, 2, 3, 4 at
`0x300 .. 0x303`, leaves `0x304` alone, the load gives the registers back, and `I = 0x304`
after each instruction. -/
theorem store_load_roundtrip_witness :
    storeState.cur_opcode.x = 3 ∧ storeState.I = 0x300 ∧
    ∃ s1 s2, LD_I_Vx storeState = .ok s1 ∧
      LD_Vx_I { s1 with I := 0x300, cur_opcode := ⟨0xF365⟩ } = .ok s2 ∧
      (∀ i, s2.V i = storeState.V i) ∧
      s1.ram 0x300 = 1 ∧ s1.ram 0x303 = 4 ∧ s1.ram 0x304 = 0 ∧
      s1.I = 0x304 ∧ s2.I = 0x304 := by
  have hx : storeState.cur_opcode.x = 3 := by decide
  obtain ⟨s1, s2, h1, h2, hV, -, hram, hother, -, hI1, hI2⟩ :=
    store_load_roundtrip storeState ⟨0xF365⟩ (by decide) (by decide)
  rw [hx] at hram hother hI1 hI2
  have hI : storeState.I = 0x300 := rfl
  rw [hI] at hram hother hI1 hI2
  refine ⟨hx, hI, s1, s2, h1, h2, hV, ?_, ?_, ?_, hI1, hI2⟩
  · exact hram 0 (by decide)
  · exact hram 3 (by decide)
  · exact hother 0x304 (by decide)

/-! ## C1, C2: draw sprite (Dxyn) -/

/-- The mask test of the draw loop reads bit `7 - j` of the sprite byte. -/
theorem mask_test_iff (pixel j : Nat) (hj : j < 8) :
    (pixel &&& (0x80 >>> j)) > 0 ↔ pixel.testBit (7 - j) = true := by
  have h : (0x80 >>> j) = 2 ^ (7 - j) := by
    interval_cases j <;> rfl
  rw [h, Nat.and_two_pow]
  cases pixel.testBit (7 - j) <;> simp

/-- One iteration of the inner draw loop: it touches at most the cell of column
`x_coord + vx` in row `row`, and raises `V[0xF]` when it flips a cell that was not zero. -/
theorem DRW_cols_step (pixel row vx : Nat) (hrow : row < 32) (k x_coord : Nat) (s : CPU) :
    ∃ V2 fb2, DRW_cols pixel row vx (k + 1) x_coord s
        = DRW_cols pixel row vx k (x_coord + 1) { s with V := V2, frame_buffer := fb2 } ∧
      (∀ p, fb2 p =
        if p = row * 64 + (x_coord + vx) ∧ x_coord + vx < 64 ∧ (pixel &&& (0x80 >>> x_coord)) > 0
        then u8 (s.frame_buffer p ^^^ 1) else s.frame_buffer p) ∧
      (∀ i, i ≠ 0xF → V2 i = s.V i) ∧
      V2 0xF = (if x_coord + vx < 64 ∧ (pixel &&& (0x80 >>> x_coord)) > 0 ∧
          s.frame_buffer (row * 64 + (x_coord + vx)) ≠ 0 then 1 else s.V 0xF) := by
  by_cases hcol : x_coord + vx ≥ 64
  · refine ⟨s.V, s.frame_buffer, ?_, fun p => ?_, fun _ _ => rfl, ?_⟩
    · rw [DRW_cols]
      simp only [screen_width, if_pos hcol]
    · rw [if_neg (by omega)]
    · rw [if_neg (by omega)]
  · by_cases hbit : (pixel &&& (0x80 >>> x_coord)) > 0
    · have hpos : row * 64 + (x_coord + vx) < 2048 := by omega
      by_cases hlit : s.frame_buffer (row * 64 + (x_coord + vx)) ≠ 0
      · refine ⟨write s.V 0xF 1, write s.frame_buffer (row * 64 + (x_coord + vx))
            (u8 (s.frame_buffer (row * 64 + (x_coord + vx)) ^^^ 1)), ?_, fun p => ?_,
            fun i hi => write_other _ _ hi, ?_⟩
        · rw [DRW_cols]
          simp only [screen_width, screen_height, screen_pixel_count, if_neg hcol, if_pos hbit,
            Nat.reduceMul, if_pos hpos, if_pos hlit]
        · by_cases hp : p = row * 64 + (x_coord + vx)
          · rw [if_pos ⟨hp, by omega, hbit⟩, hp, write_same]
          · rw [if_neg (fun h => hp h.1), write_other _ _ hp]
        · rw [write_same, if_pos ⟨by omega, hbit, hlit⟩]
      · refine ⟨s.V, write s.frame_buffer (row * 64 + (x_coord + vx))
            (u8 (s.frame_buffer (row * 64 + (x_coord + vx)) ^^^ 1)), ?_, fun p => ?_,
            fun _ _ => rfl, ?_⟩
        · rw [DRW_cols]
          simp only [screen_width, screen_height, screen_pixel_count, if_neg hcol, if_pos hbit,
            Nat.reduceMul, if_pos hpos, if_neg hlit]
        · by_cases hp : p = row * 64 + (x_coord + vx)
          · rw [if_pos ⟨hp, by omega, hbit⟩, hp, write_same]
          · rw [if_neg (fun h => hp h.1), write_other _ _ hp]
        · rw [if_neg (fun h => hlit h.2.2)]
    · refine ⟨s.V, s.frame_buffer, ?_, fun p => ?_, fun _ _ => rfl, ?_⟩
      · rw [DRW_cols]
        simp only [screen_width, if_neg hcol, if_neg hbit]
      · rw [if_neg (fun h => hbit h.2.2)]
      · rw [if_neg (fun h => hbit h.2.1)]

/-- The inner draw loop run for `k` iterations from `x_coord`: it returns, flips exactly the
cells of row `row` in the on-screen columns `x_coord + vx ≤ c < x_coord + k + vx` whose sprite
bit is set, and sets `V[0xF]` to 1 exactly when one of those cells was not zero. -/
theorem DRW_cols_spec (pixel row vx : Nat) (hrow : row < 32) (k : Nat) :
    ∀ (x_coord : Nat) (s : CPU),
    ∃ V1 fb1, DRW_cols pixel row vx k x_coord s = .ok { s with V := V1, frame_buffer := fb1 } ∧
      (∀ r c, c < 64 → fb1 (r * 64 + c) =
        if r = row ∧ x_coord + vx ≤ c ∧ c < x_coord + k + vx ∧
            (pixel &&& (0x80 >>> (c - vx))) > 0
        then u8 (s.frame_buffer (r * 64 + c) ^^^ 1) else s.frame_buffer (r * 64 + c)) ∧
      (∀ i, i ≠ 0xF → V1 i = s.V i) ∧
      ((∃ c, c < 64 ∧ x_coord + vx ≤ c ∧ c < x_coord + k + vx ∧
          (pixel &&& (0x80 >>> (c - vx))) > 0 ∧ s.frame_buffer (row * 64 + c) ≠ 0) →
        V1 0xF = 1) ∧
      ((¬ ∃ c, c < 64 ∧ x_coord + vx ≤ c ∧ c < x_coord + k + vx ∧
          (pixel &&& (0x80 >>> (c - vx))) > 0 ∧ s.frame_buffer (row * 64 + c) ≠ 0) →
        V1 0xF = s.V 0xF) := by
  induction k with
  | zero =>
    intro x_coord s
    refine ⟨s.V, s.frame_buffer, rfl, fun r c _ => ?_, fun _ _ => rfl, ?_, fun _ => rfl⟩
    · rw [if_neg (by omega)]
    · rintro ⟨c, -, h1, h2, -⟩
      omega
  | succ k ih =>
    intro x_coord s
    obtain ⟨V2, fb2, hrec, hfb2, hV2, hF2⟩ := DRW_cols_step pixel row vx hrow k x_coord s
    obtain ⟨V1, fb1, hrun, hfb1, hV1, hF1a, hF1b⟩ :=
      ih (x_coord + 1) { s with V := V2, frame_buffer := fb2 }
    simp only at hfb1 hV1 hF1a hF1b
    have hsub : x_coord + vx - vx = x_coord := by omega
    refine ⟨V1, fb1, by rw [hrec]; exact hrun, fun r c hc => ?_, fun i hi => ?_, ?_, ?_⟩
    · rw [hfb1 r c hc, hfb2 (r * 64 + c)]
      by_cases hB : r * 64 + c = row * 64 + (x_coord + vx) ∧ x_coord + vx < 64 ∧
          (pixel &&& (0x80 >>> x_coord)) > 0
      · have hr : r = row := by omega
        have hcx : c = x_coord + vx := by omega
        rw [if_neg (by omega), if_pos hB, if_pos ⟨hr, by omega, by omega, by rw [hcx, hsub]; exact hB.2.2⟩]
      · rw [if_neg hB]
        by_cases hA1 : r = row ∧ x_coord + 1 + vx ≤ c ∧ c < x_coord + 1 + k + vx ∧
            (pixel &&& (0x80 >>> (c - vx))) > 0
        · rw [if_pos hA1, if_pos ⟨hA1.1, by omega, by omega, hA1.2.2.2⟩]
        · rw [if_neg hA1, if_neg]
          rintro ⟨hr, h1, h2, h3⟩
          by_cases hcx : c = x_coord + vx
          · apply hB
            rw [hcx, hsub] at h3
            exact ⟨by rw [hr, hcx], by omega, h3⟩
          · exact hA1 ⟨hr, by omega, by omega, h3⟩
    · rw [hV1 i hi, hV2 i hi]
    · rintro ⟨c, hc, h1, h2, h3, h4⟩
      by_cases hcx : c = x_coord + vx
      · by_cases hE1 : ∃ c, c < 64 ∧ x_coord + 1 + vx ≤ c ∧ c < x_coord + 1 + k + vx ∧
            (pixel &&& (0x80 >>> (c - vx))) > 0 ∧ fb2 (row * 64 + c) ≠ 0
        · exact hF1a hE1
        · rw [hF1b hE1, hF2, if_pos]
          rw [hcx, hsub] at h3
          rw [hcx] at h4
          exact ⟨by omega, h3, h4⟩
      · apply hF1a
        refine ⟨c, hc, by omega, by omega, h3, ?_⟩
        rw [hfb2, if_neg (by omega)]
        exact h4
    · intro hE
      have hE1 : ¬ ∃ c, c < 64 ∧ x_coord + 1 + vx ≤ c ∧ c < x_coord + 1 + k + vx ∧
          (pixel &&& (0x80 >>> (c - vx))) > 0 ∧ fb2 (row * 64 + c) ≠ 0 := by
        rintro ⟨c, hc, h1, h2, h3, h4⟩
        apply hE
        refine ⟨c, hc, by omega, by omega, h3, ?_⟩
        rw [hfb2, if_neg (by omega)] at h4
        exact h4
      rw [hF1b hE1, hF2, if_neg]
      rintro ⟨h1, h2, h3⟩
      apply hE
      exact ⟨x_coord + vx, h1, by omega, by omega, by rw [hsub]; exact h2, h3⟩

/-- The outer draw loop run for `k` iterations from `y_coord`, with the sprite bytes it reads
inside the memory: it returns, flips exactly the on-screen cells of the rows
`y_coord + vy ≤ r < y_coord + k + vy` and columns `vx ≤ c < 8 + vx` whose sprite bit is set, and
sets `V[0xF]` to 1 exactly when one of those cells was not zero. -/
theorem DRW_rows_spec (vx vy : Nat) (k : Nat) :
    ∀ (y_coord : Nat) (s : CPU), s.I + y_coord + k ≤ 4096 →
    ∃ V1 fb1, DRW_rows vx vy k y_coord s = .ok { s with V := V1, frame_buffer := fb1 } ∧
      (∀ r c, c < 64 → fb1 (r * 64 + c) =
        if r < 32 ∧ y_coord + vy ≤ r ∧ r < y_coord + k + vy ∧ vx ≤ c ∧ c < 8 + vx ∧
            (s.ram (s.I + (r - vy)) &&& (0x80 >>> (c - vx))) > 0
        then u8 (s.frame_buffer (r * 64 + c) ^^^ 1) else s.frame_buffer (r * 64 + c)) ∧
      (∀ i, i ≠ 0xF → V1 i = s.V i) ∧
      ((∃ r c, r < 32 ∧ c < 64 ∧ y_coord + vy ≤ r ∧ r < y_coord + k + vy ∧ vx ≤ c ∧
          c < 8 + vx ∧ (s.ram (s.I + (r - vy)) &&& (0x80 >>> (c - vx))) > 0 ∧
          s.frame_buffer (r * 64 + c) ≠ 0) →
        V1 0xF = 1) ∧
      ((¬ ∃ r c, r < 32 ∧ c < 64 ∧ y_coord + vy ≤ r ∧ r < y_coord + k + vy ∧ vx ≤ c ∧
          c < 8 + vx ∧ (s.ram (s.I + (r - vy)) &&& (0x80 >>> (c - vx))) > 0 ∧
          s.frame_buffer (r * 64 + c) ≠ 0) →
        V1 0xF = s.V 0xF) := by
  induction k with
  | zero =>
    intro y_coord s _
    refine ⟨s.V, s.frame_buffer, rfl, fun r c _ => ?_, fun _ _ => rfl, ?_, fun _ => rfl⟩
    · rw [if_neg (by omega)]
    · rintro ⟨r, c, -, -, h1, h2, -⟩
      omega
  | succ k ih =>
    intro y_coord s hI
    have hy : s.I + y_coord < 0x1000 := by omega
    by_cases hrow : y_coord + vy ≥ 32
    · refine ⟨s.V, s.frame_buffer, ?_, fun r c _ => ?_, fun _ _ => rfl, ?_, fun _ => rfl⟩
      · rw [DRW_rows]
        simp only [screen_height, if_pos hy, if_pos hrow]
      · rw [if_neg (by omega)]
      · rintro ⟨r, c, h0, -, h1, -⟩
        omega
    · obtain ⟨V2, fb2, hrun2, hfb2, hV2, hF2a, hF2b⟩ :=
        DRW_cols_spec (s.ram (s.I + y_coord)) (y_coord + vy) vx (by omega) 8 0 s
      obtain ⟨V1, fb1, hrun1, hfb1, hV1, hF1a, hF1b⟩ :=
        ih (y_coord + 1) { s with V := V2, frame_buffer := fb2 } (by simp only; omega)
      simp only at hfb1 hV1 hF1a hF1b
      have hsub : y_coord + vy - vy = y_coord := by omega
      have hrun : DRW_rows vx vy (k + 1) y_coord s
          = DRW_rows vx vy k (y_coord + 1) { s with V := V2, frame_buffer := fb2 } := by
        rw [DRW_rows]
        simp only [screen_height, if_pos hy, if_neg hrow, hrun2]
      refine ⟨V1, fb1, by rw [hrun]; exact hrun1, fun r c hc => ?_, fun i hi => ?_, ?_, ?_⟩
      · rw [hfb1 r c hc]
        by_cases hr : r = y_coord + vy
        · rw [if_neg (by omega), hfb2 r c hc]
          by_cases hB : r = y_coord + vy ∧ 0 + vx ≤ c ∧ c < 0 + 8 + vx ∧
              (s.ram (s.I + y_coord) &&& (0x80 >>> (c - vx))) > 0
          · rw [if_pos hB, if_pos]
            refine ⟨by omega, by omega, by omega, by omega, by omega, ?_⟩
            rw [hr, hsub]
            exact hB.2.2.2
          · rw [if_neg hB, if_neg]
            rintro ⟨-, -, -, h4, h5, h6⟩
            rw [hr, hsub] at h6
            exact hB ⟨hr, by omega, by omega, h6⟩
        · have e2 : fb2 (r * 64 + c) = s.frame_buffer (r * 64 + c) := by
            rw [hfb2 r c hc, if_neg (fun h => hr h.1)]
          rw [e2]
          by_cases hA1 : r < 32 ∧ y_coord + 1 + vy ≤ r ∧ r < y_coord + 1 + k + vy ∧ vx ≤ c ∧
              c < 8 + vx ∧ (s.ram (s.I + (r - vy)) &&& (0x80 >>> (c - vx))) > 0
          · rw [if_pos hA1, if_pos ⟨hA1.1, by omega, by omega, hA1.2.2.2⟩]
          · rw [if_neg hA1, if_neg]
            rintro ⟨h1, h2, h3, h4⟩
            exact hA1 ⟨h1, by omega, by omega, h4⟩
      · rw [hV1 i hi, hV2 i hi]
      · rintro ⟨r, c, hr32, hc, h1, h2, h3, h4, h5, h6⟩
        by_cases hr : r = y_coord + vy
        · by_cases hE1 : ∃ r c, r < 32 ∧ c < 64 ∧ y_coord + 1 + vy ≤ r ∧
              r < y_coord + 1 + k + vy ∧ vx ≤ c ∧ c < 8 + vx ∧
              (s.ram (s.I + (r - vy)) &&& (0x80 >>> (c - vx))) > 0 ∧ fb2 (r * 64 + c) ≠ 0
          · exact hF1a hE1
          · rw [hF1b hE1]
            apply hF2a
            rw [hr, hsub] at h5
            rw [hr] at h6
            exact ⟨c, hc, by omega, by omega, h5, h6⟩
        · apply hF1a
          refine ⟨r, c, hr32, hc, by omega, by omega, h3, h4, h5, ?_⟩
          rw [hfb2 r c hc, if_neg (fun h => hr h.1)]
          exact h6
      · intro hE
        have hE1 : ¬ ∃ r c, r < 32 ∧ c < 64 ∧ y_coord + 1 + vy ≤ r ∧
            r < y_coord + 1 + k + vy ∧ vx ≤ c ∧ c < 8 + vx ∧
            (s.ram (s.I + (r - vy)) &&& (0x80 >>> (c - vx))) > 0 ∧ fb2 (r * 64 + c) ≠ 0 := by
          rintro ⟨r, c, hr32, hc, h1, h2, h3, h4, h5, h6⟩
          apply hE
          refine ⟨r, c, hr32, hc, by omega, by omega, h3, h4, h5, ?_⟩
          rw [hfb2 r c hc, if_neg (fun h => by omega)] at h6
          exact h6
        rw [hF1b hE1]
        apply hF2b
        rintro ⟨c, hc, h1, h2, h3, h4⟩
        apply hE
        refine ⟨y_coord + vy, c, by omega, hc, by omega, by omega, by omega, by omega, ?_, h4⟩
        rw [hsub]
        exact h3

/-- The whole of `DRW_Vx_Vy` when the `n` sprite bytes from `I` lie inside the memory: it
returns; only `V[0xF]`, the frame buffer and the redraw flag change; the cells flipped are the
on-screen cells under a set sprite bit, the sprite being placed at column `V[x] % 64`, row
`V[y] % 32` (values from before the draw); `V[0xF]` is 1 when one of those cells was not zero
and 0 otherwise. -/
theorem DRW_Vx_Vy_spec (s : CPU) (hI : s.I + s.cur_opcode.n ≤ 4096) :
    ∃ V1 fb1, DRW_Vx_Vy s
        = .ok { s with V := V1, frame_buffer := fb1, should_redraw := true } ∧
      (∀ r c, c < 64 → fb1 (r * 64 + c) =
        if r < 32 ∧ s.V s.cur_opcode.y % 32 ≤ r ∧
            r < s.cur_opcode.n + s.V s.cur_opcode.y % 32 ∧
            s.V s.cur_opcode.x % 64 ≤ c ∧ c < 8 + s.V s.cur_opcode.x % 64 ∧
            (s.ram (s.I + (r - s.V s.cur_opcode.y % 32))
              &&& (0x80 >>> (c - s.V s.cur_opcode.x % 64))) > 0
        then u8 (s.frame_buffer (r * 64 + c) ^^^ 1) else s.frame_buffer (r * 64 + c)) ∧
      (∀ i, i ≠ 0xF → V1 i = s.V i) ∧
      ((∃ r c, r < 32 ∧ c < 64 ∧ s.V s.cur_opcode.y % 32 ≤ r ∧
          r < s.cur_opcode.n + s.V s.cur_opcode.y % 32 ∧
          s.V s.cur_opcode.x % 64 ≤ c ∧ c < 8 + s.V s.cur_opcode.x % 64 ∧
          (s.ram (s.I + (r - s.V s.cur_opcode.y % 32))
            &&& (0x80 >>> (c - s.V s.cur_opcode.x % 64))) > 0 ∧
          s.frame_buffer (r * 64 + c) ≠ 0) →
        V1 0xF = 1) ∧
      ((¬ ∃ r c, r < 32 ∧ c < 64 ∧ s.V s.cur_opcode.y % 32 ≤ r ∧
          r < s.cur_opcode.n + s.V s.cur_opcode.y % 32 ∧
          s.V s.cur_opcode.x % 64 ≤ c ∧ c < 8 + s.V s.cur_opcode.x % 64 ∧
          (s.ram (s.I + (r - s.V s.cur_opcode.y % 32))
            &&& (0x80 >>> (c - s.V s.cur_opcode.x % 64))) > 0 ∧
          s.frame_buffer (r * 64 + c) ≠ 0) →
        V1 0xF = 0) := by
  have hvx : u8 (s.V s.cur_opcode.x % screen_width) = s.V s.cur_opcode.x % 64 := by
    unfold u8 screen_width; omega
  have hvy : u8 (s.V s.cur_opcode.y % screen_height) = s.V s.cur_opcode.y % 32 := by
    unfold u8 screen_height; omega
  obtain ⟨V1, fb1, hrun, hfb, hV, hFa, hFb⟩ :=
    DRW_rows_spec (s.V s.cur_opcode.x % 64) (s.V s.cur_opcode.y % 32) s.cur_opcode.n 0
      { s with V := write s.V 0xF 0 } (by simp only; omega)
  simp only [Nat.zero_add] at hfb hV hFa hFb
  refine ⟨V1, fb1, ?_, hfb, fun i hi => ?_, hFa, fun h => ?_⟩
  · rw [DRW_Vx_Vy]
    simp only [hvx, hvy, hrun]
  · rw [hV i hi, write_other _ _ hi]
  · rw [hFb h, write_same]

/-- C1: with `I + n ≤ 4096`, `DRW_Vx_Vy` returns a state with the redraw flag set in which
each frame-buffer cell `(r, c)`, `r < 32`, `c < 64`, is its old value XOR 1 exactly when
`vy ≤ r < vy + n`, `vx ≤ c < vx + 8` and bit `7 - (c - vx)` of `ram[I + (r - vy)]` is set,
where `vx = V[x] % 64` and `vy = V[y] % 32` are read before the draw; every other cell is
unchanged, so sprite pixels beyond row 31 or column 63 are dropped and not wrapped. -/
theorem DRW_Vx_Vy_frame_buffer (s : CPU) (hwf : s.WF) (hI : s.I + s.cur_opcode.n ≤ 4096) :
    ∃ s1, DRW_Vx_Vy s = .ok s1 ∧ s1.should_redraw = true ∧
      ∀ r c, r < 32 → c < 64 →
        s1.frame_buffer (r * 64 + c) =
          if s.V s.cur_opcode.y % 32 ≤ r ∧ r < s.V s.cur_opcode.y % 32 + s.cur_opcode.n ∧
              s.V s.cur_opcode.x % 64 ≤ c ∧ c < s.V s.cur_opcode.x % 64 + 8 ∧
              (s.ram (s.I + (r - s.V s.cur_opcode.y % 32))).testBit
                (7 - (c - s.V s.cur_opcode.x % 64)) = true
          then s.frame_buffer (r * 64 + c) ^^^ 1 else s.frame_buffer (r * 64 + c) := by
  obtain ⟨V1, fb1, hrun, hfb, -, -, -⟩ := DRW_Vx_Vy_spec s hI
  refine ⟨_, hrun, rfl, fun r c hr hc => ?_⟩
  have hflip : u8 (s.frame_buffer (r * 64 + c) ^^^ 1) = s.frame_buffer (r * 64 + c) ^^^ 1 :=
    u8_of_lt (@Nat.xor_lt_two_pow _ _ 8 (hwf.frame_buffer_lt _) (by decide))
  show fb1 (r * 64 + c) = _
  rw [hfb r c hc, hflip]
  by_cases hA : s.V s.cur_opcode.y % 32 ≤ r ∧ r < s.V s.cur_opcode.y % 32 + s.cur_opcode.n ∧
      s.V s.cur_opcode.x % 64 ≤ c ∧ c < s.V s.cur_opcode.x % 64 + 8 ∧
      (s.ram (s.I + (r - s.V s.cur_opcode.y % 32))).testBit
        (7 - (c - s.V s.cur_opcode.x % 64)) = true
  · rw [if_pos hA, if_pos]
    exact ⟨hr, hA.1, by omega, hA.2.2.1, by omega,
      (mask_test_iff _ _ (by omega)).mpr hA.2.2.2.2⟩
  · rw [if_neg hA, if_neg]
    rintro ⟨-, h1, h2, h3, h4, h5⟩
    exact hA ⟨h1, by omega, h3, by omega, (mask_test_iff _ _ (by omega)).mp h5⟩

/-- C1, exercised: the sprite row `0xFF` drawn at column 60, row 0 on an empty screen lights
columns 60..63 of row 0 and nothing else; column 0 stays dark. -/
theorem DRW_Vx_Vy_frame_buffer_witness :
    drawState.V drawState.cur_opcode.x = 60 ∧ drawState.V drawState.cur_opcode.y = 0 ∧
    ∃ s1, DRW_Vx_Vy drawState = .ok s1 ∧ s1.should_redraw = true ∧
      ∀ r c, r < 32 → c < 64 →
        s1.frame_buffer (r * 64 + c) = if r = 0 ∧ 60 ≤ c then 1 else 0 := by
  have hram : ∀ i, (fun i => if i = 0x300 then 0xFF else 0) i < 256 := by
    intro i
    simp only
    split_ifs <;> decide
  have hwf : drawState.WF :=
    mkCPU_WF (regs_lt (by decide) (by decide) (by decide)) (by decide) hram (by decide)
  obtain ⟨s1, h1, h2, h3⟩ := DRW_Vx_Vy_frame_buffer drawState hwf (by decide)
  have ex : drawState.V drawState.cur_opcode.x % 64 = 60 := by decide
  have ey : drawState.V drawState.cur_opcode.y % 32 = 0 := by decide
  have en : drawState.cur_opcode.n = 1 := by decide
  have eI : drawState.I = 0x300 := rfl
  have efb : ∀ p, drawState.frame_buffer p = 0 := fun _ => rfl
  have eram : drawState.ram 0x300 = 0xFF := by decide
  refine ⟨by decide, by decide, s1, h1, h2, fun r c hr hc => ?_⟩
  rw [h3 r c hr hc, ex, ey, en, eI, efb]
  split_ifs with hL hR hR
  · decide
  · exact absurd ⟨by omega, hL.2.2.1⟩ hR
  · exfalso
    apply hL
    obtain ⟨h0, h60⟩ := hR
    subst h0
    refine ⟨by omega, by omega, h60, by omega, ?_⟩
    rw [eram]
    have hc4 : c = 60 ∨ c = 61 ∨ c = 62 ∨ c = 63 := by omega
    rcases hc4 with h | h | h | h <;> subst h <;> decide
  · rfl

/-- C2: with `I + n ≤ 4096`, `DRW_Vx_Vy` returns a state in which `VF` is 1 exactly when some
on-screen sprite pixel (a set sprite bit landing on row `r < 32`, column `c < 64`) falls on a
frame-buffer cell that was lit before the draw, and `VF` is 0 exactly when there is none; the
earlier value of `VF` plays no part. -/
theorem DRW_Vx_Vy_collision (s : CPU) (hI : s.I + s.cur_opcode.n ≤ 4096) :
    ∃ s1, DRW_Vx_Vy s = .ok s1 ∧
      (s1.V 0xF = 1 ↔
        ∃ r c, r < 32 ∧ c < 64 ∧
          s.V s.cur_opcode.y % 32 ≤ r ∧ r < s.V s.cur_opcode.y % 32 + s.cur_opcode.n ∧
          s.V s.cur_opcode.x % 64 ≤ c ∧ c < s.V s.cur_opcode.x % 64 + 8 ∧
          (s.ram (s.I + (r - s.V s.cur_opcode.y % 32))).testBit
            (7 - (c - s.V s.cur_opcode.x % 64)) = true ∧
          s.frame_buffer (r * 64 + c) ≠ 0) ∧
      (s1.V 0xF = 0 ↔
        ¬ ∃ r c, r < 32 ∧ c < 64 ∧
          s.V s.cur_opcode.y % 32 ≤ r ∧ r < s.V s.cur_opcode.y % 32 + s.cur_opcode.n ∧
          s.V s.cur_opcode.x % 64 ≤ c ∧ c < s.V s.cur_opcode.x % 64 + 8 ∧
          (s.ram (s.I + (r - s.V s.cur_opcode.y % 32))).testBit
            (7 - (c - s.V s.cur_opcode.x % 64)) = true ∧
          s.frame_buffer (r * 64 + c) ≠ 0) := by
  obtain ⟨V1, fb1, hrun, -, -, hFa, hFb⟩ := DRW_Vx_Vy_spec s hI
  refine ⟨_, hrun, ?_⟩
  show (V1 0xF = 1 ↔ _) ∧ (V1 0xF = 0 ↔ _)
  by_cases hE : ∃ r c, r < 32 ∧ c < 64 ∧
      s.V s.cur_opcode.y % 32 ≤ r ∧ r < s.V s.cur_opcode.y % 32 + s.cur_opcode.n ∧
      s.V s.cur_opcode.x % 64 ≤ c ∧ c < s.V s.cur_opcode.x % 64 + 8 ∧
      (s.ram (s.I + (r - s.V s.cur_opcode.y % 32))).testBit
        (7 - (c - s.V s.cur_opcode.x % 64)) = true ∧
      s.frame_buffer (r * 64 + c) ≠ 0
  · have h1 : V1 0xF = 1 := by
      apply hFa
      obtain ⟨r, c, hr, hc, h1, h2, h3, h4, h5, h6⟩ := hE
      exact ⟨r, c, hr, hc, h1, by omega, h3, by omega,
        (mask_test_iff _ _ (by omega)).mpr h5, h6⟩
    refine ⟨⟨fun _ => hE, fun _ => h1⟩, ⟨fun h0 => ?_, fun hn => absurd hE hn⟩⟩
    rw [h1] at h0
    exact absurd h0 (by decide)
  · have h0 : V1 0xF = 0 := by
      apply hFb
      rintro ⟨r, c, hr, hc, h1, h2, h3, h4, h5, h6⟩
      exact hE ⟨r, c, hr, hc, h1, by omega, h3, by omega,
        (mask_test_iff _ _ (by omega)).mp h5, h6⟩
    refine ⟨⟨fun h1 => ?_, fun h => absurd h hE⟩, ⟨fun _ => hE, fun _ => h0⟩⟩
    rw [h0] at h1
    exact absurd h1 (by decide)

/-- C2, exercised: two sprite rows `0xFF` drawn at column 60, row 0 with `VF = 7` beforehand
and only the cell of row 0, column 61 lit: the collision of the first row survives the
second, collision-free row and `VF` ends as 1. -/
theorem DRW_Vx_Vy_collision_witness :
    drawLitState.V 0xF = 7 ∧ drawLitState.cur_opcode.n = 2 ∧
    ∃ s1, DRW_Vx_Vy drawLitState = .ok s1 ∧ s1.V 0xF = 1 := by
  obtain ⟨s1, h1, h2, -⟩ := DRW_Vx_Vy_collision drawLitState (by decide)
  refine ⟨by decide, by decide, s1, h1, h2.mpr ⟨0, 61, ?_⟩⟩
  decide

end CPU

/-! ## C11: opcode fields -/

/-- Masking with `m` one-bits placed at bit `k` keeps bits `k .. k + m - 1`. -/
theorem and_shifted_mask (W k m : Nat) :
    W &&& ((2 ^ m - 1) <<< k) = ((W >>> k) % 2 ^ m) <<< k := by
  apply Nat.eq_of_testBit_eq
  intro j
  simp only [Nat.testBit_and, Nat.testBit_shiftLeft, Nat.testBit_two_pow_sub_one,
    Nat.testBit_mod_two_pow, Nat.testBit_shiftRight]
  by_cases h : j ≥ k
  · have e : k + (j - k) = j := by omega
    rw [e]
    cases W.testBit j <;> simp [h]
  · simp [h]

/-- The four masks of `class Opcode` in arithmetic form. -/
theorem opcode_masks (W : Nat) :
    W &&& 0xF000 = (W / 4096 % 16) * 4096 ∧ W &&& 0x0F00 = (W / 256 % 16) * 256 ∧
    W &&& 0x00F0 = (W / 16 % 16) * 16 ∧ W &&& 0x0FFF = W % 4096 ∧
    W &&& 0x00FF = W % 256 ∧ W &&& 0x000F = W % 16 := by
  have h1 := and_shifted_mask W 12 4
  have h2 := and_shifted_mask W 8 4
  have h3 := and_shifted_mask W 4 4
  simp only [Nat.shiftLeft_eq, Nat.shiftRight_eq_div_pow] at h1 h2 h3
  norm_num at h1 h2 h3
  exact ⟨h1, h2, h3, Nat.and_pow_two_sub_one_eq_mod W 12, Nat.and_pow_two_sub_one_eq_mod W 8,
    Nat.and_pow_two_sub_one_eq_mod W 4⟩

namespace CPU

/-- C11: for every 16-bit word `W` the accessors return `msb = W & 0xF000`,
`nnn = W & 0x0FFF`, `n = W & 0x000F`, `x = (W & 0x0F00) >> 8`, `y = (W & 0x00F0) >> 4`,
`kk = W & 0x00FF`; hence `x ≤ 15`, `y ≤ 15`, `W = msb + 256*x + 16*y + n`,
`nnn = 256*x + kk` and `kk = 16*y + n`. -/
theorem opcode_fields (W : Nat) (hW : W < 65536) :
    (Opcode.mk W).msb = W &&& 0xF000 ∧ (Opcode.mk W).nnn = W &&& 0x0FFF ∧
    (Opcode.mk W).n = W &&& 0x000F ∧ (Opcode.mk W).x = (W &&& 0x0F00) >>> 8 ∧
    (Opcode.mk W).y = (W &&& 0x00F0) >>> 4 ∧ (Opcode.mk W).kk = W &&& 0x00FF ∧
    (Opcode.mk W).x ≤ 15 ∧ (Opcode.mk W).y ≤ 15 ∧
    W = (Opcode.mk W).msb + 256 * (Opcode.mk W).x + 16 * (Opcode.mk W).y + (Opcode.mk W).n ∧
    (Opcode.mk W).nnn = 256 * (Opcode.mk W).x + (Opcode.mk W).kk ∧
    (Opcode.mk W).kk = 16 * (Opcode.mk W).y + (Opcode.mk W).n := by
  obtain ⟨m1, m2, m3, m4, m5, m6⟩ := opcode_masks W
  have e1 : (Opcode.mk W).msb = W &&& 0xF000 := by
    simp only [Opcode.msb, u16]; omega
  have e2 : (Opcode.mk W).nnn = W &&& 0x0FFF := by
    simp only [Opcode.nnn, u16]; omega
  have e3 : (Opcode.mk W).n = W &&& 0x000F := by
    simp only [Opcode.n, u8]; omega
  have e4 : (Opcode.mk W).x = (W &&& 0x0F00) >>> 8 := by
    simp only [Opcode.x, u8, Nat.shiftRight_eq_div_pow]; omega
  have e5 : (Opcode.mk W).y = (W &&& 0x00F0) >>> 4 := by
    simp only [Opcode.y, u8, Nat.shiftRight_eq_div_pow]; omega
  have e6 : (Opcode.mk W).kk = W &&& 0x00FF := by
    simp only [Opcode.kk, u8]; omega
  refine ⟨e1, e2, e3, e4, e5, e6, ?_, ?_, ?_, ?_, ?_⟩
  · rw [e4, Nat.shiftRight_eq_div_pow]; omega
  · rw [e5, Nat.shiftRight_eq_div_pow]; omega
  · rw [e1, e3, e4, e5, Nat.shiftRight_eq_div_pow, Nat.shiftRight_eq_div_pow]; omega
  · rw [e2, e4, e6, Nat.shiftRight_eq_div_pow]; omega
  · rw [e3, e5, e6, Nat.shiftRight_eq_div_pow]; omega

/-- C11, exercised: `0xD123` gives `msb = 0xD000`, `x = 1`, `y = 2`, `n = 3`, `nnn = 0x123`,
`kk = 0x23`. -/
theorem opcode_fields_witness :
    (Opcode.mk 0xD123).msb = 0xD000 ∧ (Opcode.mk 0xD123).x = 0x1 ∧
    (Opcode.mk 0xD123).y = 0x2 ∧ (Opcode.mk 0xD123).n = 0x3 ∧
    (Opcode.mk 0xD123).nnn = 0x123 ∧ (Opcode.mk 0xD123).kk = 0x23 := by
  obtain ⟨h1, h2, h3, h4, h5, h6, -⟩ := opcode_fields 0xD123 (by decide)
  rw [h1, h2, h3, h4, h5, h6]
  decide

/-! ## C12, C13: wait for key (Fx0A) -/

/-- C12 evaluated on the code: with `F00A` at `0x200`, `V[0] = 0` and key 5 the lowest (and
only) pressed key, one `cycle` leaves `V[0] = 0` and `pc = 0x200`; the loop tests
`keypad[V[x]]`, here `keypad[0]`, in every iteration, so the pressed key is not found. -/
theorem LD_Vx_K_misses_pressed_key :
    keyFiveState.keypad 5 = true ∧ (∀ i, i < 5 → keyFiveState.keypad i = false) ∧
    keyFiveState.pc = 0x200 ∧ keyFiveState.V 0 = 0 ∧
    ∃ s1, cycle 0 keyFiveState = .ok s1 ∧ s1.cur_opcode = ⟨0xF00A⟩ ∧
      s1.V 0 = 0 ∧ s1.pc = 0x200 := by
  refine ⟨by decide, by decide, rfl, rfl, _, rfl, by decide, by decide, by decide⟩

/-- C13 evaluated on the code: with `F00A` at `0x200`, `V[0] = 0xF` and key `0xF` the only
pressed key, one `cycle` completes the instruction: `V[0]` becomes 0 and `pc` is `0x202`; the
first iteration tests `keypad[V[0]] = keypad[0xF]`. -/
theorem LD_Vx_K_completes_on_key_F :
    (∀ i, i < 0xF → keyFState.keypad i = false) ∧ keyFState.keypad 0xF = true ∧
    keyFState.pc = 0x200 ∧ keyFState.V 0 = 0xF ∧
    ∃ s1, cycle 0 keyFState = .ok s1 ∧ s1.cur_opcode = ⟨0xF00A⟩ ∧
      s1.V 0 = 0 ∧ s1.pc = 0x202 := by
  refine ⟨by decide, by decide, rfl, rfl, _, rfl, by decide, by decide, by decide⟩

/-! ## C14: unrecognised sub-selectors -/

/-- Closed form of `cycle` when both bytes of the instruction lie inside the memory: the
fetched word becomes `cur_opcode`, `pc` goes up by 2, and the dispatch runs. -/
theorem cycle_eq_dispatch (rnd : Nat) (s : CPU) (hpc : s.pc + 1 < 4096) :
    cycle rnd s = dispatch rnd { s with
      pc := s.pc + 2
      cur_opcode := ⟨u16 ((s.ram s.pc <<< 8) ||| s.ram (s.pc + 1))⟩ } := by
  have h1 : s.pc < 0x1000 ∧ s.pc + 1 < 0x1000 := ⟨by omega, by omega⟩
  have h2 : u16 (s.pc + 2) = s.pc + 2 := u16_of_lt (by omega)
  simp only [cycle, fetch, if_pos h1, h2]

/-- C14: when `PC + 1 < 4096` and the fetched word `op` has no handler in its class (class
`0x0` with `nnn` not `0x0E0`, `0x0EE`; class `0x8` with `n` in `8, 9, A, B, C, D, F`; class
`0xE` with `kk` not `0x9E`, `0xA1`; class `0xF` with `kk` none of `07, 0A, 15, 18, 1E, 29, 33,
55, 65`), one `cycle` returns the state with `pc` advanced by 2 and `cur_opcode` the fetched
word, every other member (registers, `I`, stack, stack pointer, timers, RAM, frame buffer,
redraw flag, key state) as before. -/
theorem cycle_unknown_selector (rnd : Nat) (s : CPU) (op : Opcode)
    (hop : op = ⟨u16 ((s.ram s.pc <<< 8) ||| s.ram (s.pc + 1))⟩) (hpc : s.pc + 1 < 4096)
    (h : (op.msb = 0x0000 ∧ op.nnn ≠ 0x0E0 ∧ op.nnn ≠ 0x0EE) ∨
      (op.msb = 0x8000 ∧ (op.n = 0x8 ∨ op.n = 0x9 ∨ op.n = 0xA ∨ op.n = 0xB ∨ op.n = 0xC ∨
        op.n = 0xD ∨ op.n = 0xF)) ∨
      (op.msb = 0xE000 ∧ op.kk ≠ 0x9E ∧ op.kk ≠ 0xA1) ∨
      (op.msb = 0xF000 ∧ op.kk ≠ 0x07 ∧ op.kk ≠ 0x0A ∧ op.kk ≠ 0x15 ∧ op.kk ≠ 0x18 ∧
        op.kk ≠ 0x1E ∧ op.kk ≠ 0x29 ∧ op.kk ≠ 0x33 ∧ op.kk ≠ 0x55 ∧ op.kk ≠ 0x65)) :
    cycle rnd s = .ok { s with pc := s.pc + 2, cur_opcode := op } := by
  rw [cycle_eq_dispatch rnd s hpc, ← hop]
  rcases h with ⟨hm, h1, h2⟩ | ⟨hm, hn⟩ | ⟨hm, h1, h2⟩ | ⟨hm, h1, h2, h3, h4, h5, h6, h7, h8, h9⟩
  · simp only [dispatch, hm, if_true, if_neg h1, if_neg h2]
  · rcases hn with hn | hn | hn | hn | hn | hn | hn <;> simp [dispatch, hm, hn]
  · simp [dispatch, hm, h1, h2]
  · simp [dispatch, hm, h1, h2, h3, h4, h5, h6, h7, h8, h9]

/-- C14, exercised: the word `8128` at `0x200` (class 8, `n = 8`) only moves `pc` to
`0x202`. -/
theorem cycle_unknown_selector_witness :
    cycle 0 unknownOpState
      = .ok { unknownOpState with pc := 0x202, cur_opcode := ⟨0x8128⟩ } :=
  cycle_unknown_selector 0 unknownOpState ⟨0x8128⟩ (by decide) (by decide)
    (Or.inr (Or.inl ⟨by decide, Or.inl (by decide)⟩))

/-! ## C16: call and return (2nnn, 00EE) -/

/-- C16: with `sp < 16`, `CALL` returns a state `s1` with `stack[sp]` the current `pc`, the
stack pointer one higher and `pc = nnn`; `RET` run on `s1` (under any current opcode `o2`)
returns a state `s2` with the stack pointer and `pc` of before the call; apart from the stack
slot written and the current opcode, `s2` is the state before the call, so registers, `I`,
RAM, timers and frame buffer are unchanged. -/
theorem CALL_RET_restores (s : CPU) (o2 : Opcode) (hsp : s.sp < 16) :
    ∃ s1 s2, CALL s = .ok s1 ∧ s1.stack s.sp = s.pc ∧ s1.sp = s.sp + 1 ∧
      s1.pc = s.cur_opcode.nnn ∧ s.cur_opcode.nnn < 4096 ∧
      RET { s1 with cur_opcode := o2 } = .ok s2 ∧ s2.sp = s.sp ∧ s2.pc = s.pc ∧
      s2 = { s with stack := write s.stack s.sp s.pc, cur_opcode := o2 } := by
  have h1 : u16 (s.sp + 1) = s.sp + 1 := u16_of_lt (by omega)
  have h2 : u16s (((s.sp + 1 : Nat) : Int) - 1) = s.sp := by
    unfold u16s; omega
  have hn : s.cur_opcode.nnn < 4096 := by
    have h : s.cur_opcode.opcode &&& 0x0FFF ≤ 0x0FFF := Nat.and_le_right
    unfold Opcode.nnn u16
    omega
  have hcall : CALL s = .ok { s with
      stack := write s.stack s.sp s.pc, sp := s.sp + 1, pc := s.cur_opcode.nnn } := by
    simp only [CALL, if_pos hsp, h1]
  have hret : RET { s with
        stack := write s.stack s.sp s.pc, sp := s.sp + 1, pc := s.cur_opcode.nnn
        cur_opcode := o2 }
      = .ok { s with stack := write s.stack s.sp s.pc, cur_opcode := o2 } := by
    simp only [RET, h2, if_pos hsp, write_same]
  exact ⟨_, _, hcall, write_same _ _ _, rfl, rfl, hn, hret, rfl, rfl, rfl⟩

/-- C16, exercised: from `sp = 0`, `pc = 0x202`, the call `2345` gives `stack[0] = 0x202`,
`sp = 1`, `pc = 0x345`, and the return gives back `sp = 0`, `pc = 0x202`. -/
theorem CALL_RET_restores_witness :
    callState.sp = 0 ∧ callState.pc = 0x202 ∧
    ∃ s1 s2, CALL callState = .ok s1 ∧ s1.stack 0 = 0x202 ∧ s1.sp = 1 ∧ s1.pc = 0x345 ∧
      RET { s1 with cur_opcode := ⟨0x00EE⟩ } = .ok s2 ∧ s2.sp = 0 ∧ s2.pc = 0x202 := by
  obtain ⟨s1, s2, h1, h2, h3, h4, -, h5, h6, h7, -⟩ :=
    CALL_RET_restores callState ⟨0x00EE⟩ (by decide)
  have e : callState.cur_opcode.nnn = 0x345 := by decide
  rw [e] at h4
  exact ⟨rfl, rfl, s1, s2, h1, h2, h3, h4, h5, h6, h7⟩

/-! ## C17: running over an empty ROM -/

/-- One `cycle` over two zero bytes inside the memory: the word `0x0000` has no handler, so
only `pc` (up by 2) and `cur_opcode` change. -/
theorem cycle_zero_word (rnd : Nat) (s : CPU) (hpc : s.pc + 1 < 4096)
    (h0 : s.ram s.pc = 0) (h1 : s.ram (s.pc + 1) = 0) :
    cycle rnd s = .ok { s with pc := s.pc + 2, cur_opcode := ⟨0x0000⟩ } := by
  have hw : u16 ((0 <<< 8) ||| 0) = 0 := by decide
  rw [cycle_eq_dispatch rnd s hpc, h0, h1, hw]
  have hm : (Opcode.mk 0).msb = 0x0000 := by decide
  have hn1 : (Opcode.mk 0).nnn ≠ 0x0E0 := by decide
  have hn2 : (Opcode.mk 0).nnn ≠ 0x0EE := by decide
  simp only [dispatch, hm, if_true, if_neg hn1, if_neg hn2]

/-- A `cycle` whose instruction bytes are not both inside the memory faults in `fetch`. -/
theorem cycle_fetch_fault (rnd : Nat) (s : CPU) (hpc : 4096 ≤ s.pc + 1) :
    cycle rnd s = .error .ram_oob := by
  have h1 : ¬ (s.pc < 0x1000 ∧ s.pc + 1 < 0x1000) := by omega
  simp only [cycle, fetch, if_neg h1]

/-- As long as `pc` stays inside a zero-filled memory, `k + 1` cycles advance `pc` by
`2 * (k + 1)` and leave `0x0000` as current opcode, nothing else. -/
theorem cycles_zero_ok (k : Nat) : ∀ (rnd : Nat → Nat) (s : CPU),
    (∀ a, s.pc ≤ a → a ≤ 0xFFF → s.ram a = 0) → s.pc + 2 * (k + 1) ≤ 4096 →
    cycles rnd (k + 1) s = .ok { s with pc := s.pc + 2 * (k + 1), cur_opcode := ⟨0x0000⟩ } := by
  induction k with
  | zero =>
    intro rnd s hz hk
    rw [cycles, cycle_zero_word _ s (by omega) (hz _ (by omega) (by omega))
      (hz _ (by omega) (by omega))]
    rfl
  | succ k ih =>
    intro rnd s hz hk
    rw [cycles, cycle_zero_word _ s (by omega) (hz _ (by omega) (by omega))
      (hz _ (by omega) (by omega))]
    have hrec := ih (fun i => rnd (i + 1)) { s with pc := s.pc + 2, cur_opcode := ⟨0x0000⟩ }
      (fun a h1 h2 => hz a (by simp only at h1; omega) h2) (by simp only; omega)
    have e : s.pc + 2 + 2 * (k + 1) = s.pc + 2 * (k + 1 + 1) := by omega
    simp only [e] at hrec
    exact hrec

/-- Once more cycles are asked for than fit between an even `pc` and the end of a zero-filled
memory, the run faults: the fetch at `pc = 0x1000` reads outside the memory. -/
theorem cycles_zero_fault (k : Nat) : ∀ (rnd : Nat → Nat) (s : CPU),
    (∀ a, s.pc ≤ a → a ≤ 0xFFF → s.ram a = 0) → s.pc % 2 = 0 → s.pc ≤ 4096 →
    4096 < s.pc + 2 * k → cycles rnd k s = .error .ram_oob := by
  induction k with
  | zero =>
    intro rnd s _ _ h1 h2
    omega
  | succ k ih =>
    intro rnd s hz hev hle hk
    by_cases hend : s.pc = 4096
    · rw [cycles, cycle_fetch_fault _ s (by omega)]
    · rw [cycles, cycle_zero_word _ s (by omega) (hz _ (by omega) (by omega))
        (hz _ (by omega) (by omega))]
      exact ih (fun i => rnd (i + 1)) { s with pc := s.pc + 2, cur_opcode := ⟨0x0000⟩ }
        (fun a h1 h2 => hz a (by simp only at h1; omega) h2) (by simp only; omega)
        (by simp only; omega) (by simp only; omega)

/-- The state after `init` with no ROM has `pc = 0x200` and zero bytes from `0x200` on. -/
theorem emptyRomState_zero : emptyRomState.pc = 0x200 ∧
    ∀ a, 0x200 ≤ a → a ≤ 0xFFF → emptyRomState.ram a = 0 := by
  refine ⟨rfl, fun a h1 _ => ?_⟩
  have hlen : sprites.length = 80 := by decide
  have h : ¬ a < sprites.length := by omega
  simp only [emptyRomState, init, if_neg h, mkCPU, zeroRam]

/-- C17 as stated fails: from the state after `init` with an empty ROM, the 1793rd call of
`cycle` fetches at `pc = 0x1000`, outside the 4096-byte memory, and the run faults. -/
theorem empty_rom_run_leaves_memory :
    emptyRomState.pc = 0x200 ∧ (∀ a, 0x200 ≤ a → a ≤ 0xFFF → emptyRomState.ram a = 0) ∧
    (∃ s1, cycles (fun _ => 0) 1792 emptyRomState = .ok s1 ∧ s1.pc = 0x1000) ∧
    cycles (fun _ => 0) 1793 emptyRomState = .error .ram_oob := by
  obtain ⟨hpc, hz⟩ := emptyRomState_zero
  refine ⟨hpc, hz, ⟨_, cycles_zero_ok 1791 _ emptyRomState
    (fun a h1 h2 => hz a (by rw [hpc] at h1; exact h1) h2) (by rw [hpc]), ?_⟩, ?_⟩
  · simp only [hpc]
  · exact cycles_zero_fault 1793 _ emptyRomState
      (fun a h1 h2 => hz a (by rw [hpc] at h1; exact h1) h2) (by rw [hpc]) (by rw [hpc]; decide)
      (by rw [hpc]; decide)

/-- C17, amended: from `pc = 0x200` with every RAM byte from `0x200` to `0xFFF` zero, for every
`k` from 1 to 1792 the first `k` calls of `cycle` all fetch inside the memory, decode
`0x0000`, and change nothing but `pc`, which ends at `0x200 + 2 * k` (and `cur_opcode`, which
is `0x0000`); any longer run faults, the 1793rd fetch being at `0x1000`. -/
theorem cycles_empty_rom (rnd : Nat → Nat) (s : CPU) (hpc : s.pc = 0x200)
    (hz : ∀ a, 0x200 ≤ a → a ≤ 0xFFF → s.ram a = 0) (k : Nat) :
    (1 ≤ k → k ≤ 1792 →
      cycles rnd k s = .ok { s with pc := 0x200 + 2 * k, cur_opcode := ⟨0x0000⟩ }) ∧
    (1792 < k → cycles rnd k s = .error .ram_oob) := by
  have hz2 : ∀ a, s.pc ≤ a → a ≤ 0xFFF → s.ram a = 0 :=
    fun a h1 h2 => hz a (by rw [hpc] at h1; exact h1) h2
  constructor
  · intro h1 h2
    obtain ⟨j, rfl⟩ : ∃ j, k = j + 1 := ⟨k - 1, by omega⟩
    rw [cycles_zero_ok j rnd s hz2 (by rw [hpc]; omega), hpc]
  · intro h
    exact cycles_zero_fault k rnd s hz2 (by rw [hpc]) (by rw [hpc]; decide) (by rw [hpc]; omega)

/-- C17 amended, exercised: three cycles over the empty ROM end at `pc = 0x206`. -/
theorem cycles_empty_rom_witness :
    cycles (fun _ => 0) 3 emptyRomState
      = .ok { emptyRomState with pc := 0x206, cur_opcode := ⟨0x0000⟩ } :=
  (cycles_empty_rom (fun _ => 0) emptyRomState emptyRomState_zero.1 emptyRomState_zero.2 3).1
    (by decide) (by decide)

/-! ## C18: the frame buffer stays binary -/

theorem RET_frame_buffer (s s1 : CPU) (h : RET s = .ok s1) :
    s1.frame_buffer = s.frame_buffer := by
  simp only [RET] at h
  split_ifs at h
  cases h
  rfl

theorem CALL_frame_buffer (s s1 : CPU) (h : CALL s = .ok s1) :
    s1.frame_buffer = s.frame_buffer := by
  simp only [CALL] at h
  split_ifs at h
  cases h
  rfl

theorem SKP_Vx_frame_buffer (s s1 : CPU) (h : SKP_Vx s = .ok s1) :
    s1.frame_buffer = s.frame_buffer := by
  simp only [SKP_Vx] at h
  split_ifs at h <;> cases h <;> rfl

theorem SKNP_Vx_frame_buffer (s s1 : CPU) (h : SKNP_Vx s = .ok s1) :
    s1.frame_buffer = s.frame_buffer := by
  simp only [SKNP_Vx] at h
  split_ifs at h <;> cases h <;> rfl

theorem LD_B_Vx_frame_buffer (s s1 : CPU) (h : LD_B_Vx s = .ok s1) :
    s1.frame_buffer = s.frame_buffer := by
  simp only [LD_B_Vx] at h
  split_ifs at h
  cases h
  rfl

theorem LD_Vx_K_loop_frame_buffer (k : Nat) : ∀ (i : Nat) (s s1 : CPU),
    LD_Vx_K_loop k i s = .ok s1 → s1.frame_buffer = s.frame_buffer := by
  induction k with
  | zero =>
    intro i s s1 h
    simp only [LD_Vx_K_loop] at h
    cases h
    rfl
  | succ k ih =>
    intro i s s1 h
    simp only [LD_Vx_K_loop] at h
    split_ifs at h
    · exact (ih _ _ _ h).trans rfl
    · exact ih _ _ _ h

theorem LD_Vx_K_frame_buffer (s s1 : CPU) (h : LD_Vx_K s = .ok s1) :
    s1.frame_buffer = s.frame_buffer :=
  (LD_Vx_K_loop_frame_buffer _ _ _ _ h).trans rfl

theorem LD_I_Vx_loop_frame_buffer (k : Nat) : ∀ (i : Nat) (s s1 : CPU),
    LD_I_Vx_loop k i s = .ok s1 → s1.frame_buffer = s.frame_buffer := by
  induction k with
  | zero =>
    intro i s s1 h
    simp only [LD_I_Vx_loop] at h
    cases h
    rfl
  | succ k ih =>
    intro i s s1 h
    simp only [LD_I_Vx_loop] at h
    split_ifs at h
    exact (ih _ _ _ h).trans rfl

theorem LD_Vx_I_loop_frame_buffer (k : Nat) : ∀ (i : Nat) (s s1 : CPU),
    LD_Vx_I_loop k i s = .ok s1 → s1.frame_buffer = s.frame_buffer := by
  induction k with
  | zero =>
    intro i s s1 h
    simp only [LD_Vx_I_loop] at h
    cases h
    rfl
  | succ k ih =>
    intro i s s1 h
    simp only [LD_Vx_I_loop] at h
    split_ifs at h
    exact (ih _ _ _ h).trans rfl

theorem LD_I_Vx_frame_buffer (s s1 : CPU) (h : LD_I_Vx s = .ok s1) :
    s1.frame_buffer = s.frame_buffer := by
  unfold LD_I_Vx at h
  split at h
  · rename_i s2 h2
    cases h
    have h3 := LD_I_Vx_loop_frame_buffer _ _ _ _ h2
    exact h3
  · cases h

theorem LD_Vx_I_frame_buffer (s s1 : CPU) (h : LD_Vx_I s = .ok s1) :
    s1.frame_buffer = s.frame_buffer := by
  unfold LD_Vx_I at h
  split at h
  · rename_i s2 h2
    cases h
    have h3 := LD_Vx_I_loop_frame_buffer _ _ _ _ h2
    exact h3
  · cases h

/-- The inner draw loop keeps a binary frame buffer binary. -/
theorem DRW_cols_binary (pixel row vx : Nat) (hrow : row < 32) (k x_coord : Nat) (s s1 : CPU)
    (h : DRW_cols pixel row vx k x_coord s = .ok s1)
    (hb : ∀ p, p < 2048 → s.frame_buffer p = 0 ∨ s.frame_buffer p = 1) :
    ∀ p, p < 2048 → s1.frame_buffer p = 0 ∨ s1.frame_buffer p = 1 := by
  obtain ⟨V1, fb1, hrun, hfb, -, -, -⟩ := DRW_cols_spec pixel row vx hrow k x_coord s
  rw [hrun] at h
  cases h
  intro p hp
  have hcell := hfb (p / 64) (p % 64) (Nat.mod_lt _ (by decide))
  rw [Nat.div_add_mod'] at hcell
  show fb1 p = 0 ∨ fb1 p = 1
  rw [hcell]
  split_ifs
  · rcases hb p hp with h0 | h1
    · rw [h0]; right; decide
    · rw [h1]; left; decide
  · exact hb p hp

/-- The outer draw loop, when it returns, keeps a binary frame buffer binary. -/
theorem DRW_rows_binary (vx vy : Nat) (k : Nat) : ∀ (y_coord : Nat) (s s1 : CPU),
    DRW_rows vx vy k y_coord s = .ok s1 →
    (∀ p, p < 2048 → s.frame_buffer p = 0 ∨ s.frame_buffer p = 1) →
    ∀ p, p < 2048 → s1.frame_buffer p = 0 ∨ s1.frame_buffer p = 1 := by
  induction k with
  | zero =>
    intro y_coord s s1 h hb
    simp only [DRW_rows] at h
    cases h
    exact hb
  | succ k ih =>
    intro y_coord s s1 h hb
    simp only [DRW_rows, screen_height] at h
    split_ifs at h with h1 h2
    · cases h
      exact hb
    · obtain ⟨V2, fb2, hrun2, -⟩ :=
        DRW_cols_spec (s.ram (s.I + y_coord)) (y_coord + vy) vx (by omega) 8 0 s
      have hb2 := DRW_cols_binary _ _ _ (by omega) _ _ _ _ hrun2 hb
      rw [hrun2] at h
      exact ih _ _ _ h hb2

/-- The outer draw loop never faults on a frame-buffer access. -/
theorem DRW_rows_no_frame_fault (vx vy : Nat) (k : Nat) : ∀ (y_coord : Nat) (s : CPU),
    DRW_rows vx vy k y_coord s ≠ .error .frame_buffer_oob := by
  induction k with
  | zero =>
    intro y_coord s h
    simp only [DRW_rows] at h
    cases h
  | succ k ih =>
    intro y_coord s h
    simp only [DRW_rows, screen_height] at h
    split_ifs at h with h1 h2
    · obtain ⟨V2, fb2, hrun2, -⟩ :=
        DRW_cols_spec (s.ram (s.I + y_coord)) (y_coord + vy) vx (by omega) 8 0 s
      rw [hrun2] at h
      exact ih _ _ h
    · cases h

/-- The draw instruction, when it returns, keeps a binary frame buffer binary. -/
theorem DRW_Vx_Vy_binary (s s1 : CPU) (h : DRW_Vx_Vy s = .ok s1)
    (hb : ∀ p, p < 2048 → s.frame_buffer p = 0 ∨ s.frame_buffer p = 1) :
    ∀ p, p < 2048 → s1.frame_buffer p = 0 ∨ s1.frame_buffer p = 1 := by
  simp only [DRW_Vx_Vy] at h
  split at h
  · rename_i s2 h2
    cases h
    have h3 := DRW_rows_binary _ _ _ _ _ _ h2 hb
    exact h3
  · cases h

theorem SE_Vx_frame_buffer (s : CPU) : (SE_Vx s).frame_buffer = s.frame_buffer := by
  unfold SE_Vx
  split_ifs <;> rfl

theorem SNE_Vx_frame_buffer (s : CPU) : (SNE_Vx s).frame_buffer = s.frame_buffer := by
  unfold SNE_Vx
  split_ifs <;> rfl

theorem SE_Vx_Vy_frame_buffer (s : CPU) : (SE_Vx_Vy s).frame_buffer = s.frame_buffer := by
  unfold SE_Vx_Vy
  split_ifs <;> rfl

theorem SNE_Vx_Vy_frame_buffer (s : CPU) : (SNE_Vx_Vy s).frame_buffer = s.frame_buffer := by
  unfold SNE_Vx_Vy
  split_ifs <;> rfl

/-- Case split on an `if`, for a property of its value. -/
theorem ite_ind {α : Type} (P : α → Prop) (c : Prop) (inst : Decidable c) (a b : α)
    (ha : P a) (hb : P b) : P (@ite α c inst a b) := by
  split_ifs <;> assumption

/-- Whatever the opcode, a dispatch that returns has left the frame buffer alone, or was
`CLS`, or was `DRW_Vx_Vy`. -/
theorem dispatch_frame_buffer (rnd : Nat) (s s1 : CPU) (h : dispatch rnd s = .ok s1) :
    s1.frame_buffer = s.frame_buffer ∨ s1 = CLS s ∨ DRW_Vx_Vy s = .ok s1 := by
  revert s1
  unfold dispatch
  intro s1
  show (if s.cur_opcode.msb = 0x0000 then _ else _) = _ → _
  revert s1
  repeat' with_reducible refine ite_ind (fun r => ∀ s1, r = Except.ok s1 →
    s1.frame_buffer = s.frame_buffer ∨ s1 = CLS s ∨ DRW_Vx_Vy s = .ok s1) _ _ _ _ ?_ ?_
  all_goals intro s1 h
  all_goals first
    | exact Or.inr (Or.inr h)
    | exact Or.inl (RET_frame_buffer _ _ h)
    | exact Or.inl (CALL_frame_buffer _ _ h)
    | exact Or.inl (SKP_Vx_frame_buffer _ _ h)
    | exact Or.inl (SKNP_Vx_frame_buffer _ _ h)
    | exact Or.inl (LD_Vx_K_frame_buffer _ _ h)
    | exact Or.inl (LD_B_Vx_frame_buffer _ _ h)
    | exact Or.inl (LD_I_Vx_frame_buffer _ _ h)
    | exact Or.inl (LD_Vx_I_frame_buffer _ _ h)
    | (cases h
       first
         | exact Or.inl rfl
         | exact Or.inr (Or.inl rfl)
         | exact Or.inl (SE_Vx_frame_buffer _)
         | exact Or.inl (SNE_Vx_frame_buffer _)
         | exact Or.inl (SE_Vx_Vy_frame_buffer _)
         | exact Or.inl (SNE_Vx_Vy_frame_buffer _))

/-- The fetch leaves the frame buffer alone. -/
theorem fetch_frame_buffer (s s1 : CPU) (op : Opcode) (h : fetch s = .ok (op, s1)) :
    s1.frame_buffer = s.frame_buffer := by
  simp only [fetch] at h
  split_ifs at h
  cases h
  rfl

/-- One `cycle` that returns keeps a binary frame buffer binary. -/
theorem cycle_binary (rnd : Nat) (s s1 : CPU) (h : cycle rnd s = .ok s1)
    (hb : ∀ p, p < 2048 → s.frame_buffer p = 0 ∨ s.frame_buffer p = 1) :
    ∀ p, p < 2048 → s1.frame_buffer p = 0 ∨ s1.frame_buffer p = 1 := by
  simp only [cycle] at h
  split at h
  · rename_i op s2 hf
    have hfb2 : s2.frame_buffer = s.frame_buffer := fetch_frame_buffer s s2 op hf
    have hb2 : ∀ p, p < 2048 →
        ({ s2 with cur_opcode := op } : CPU).frame_buffer p = 0 ∨
        ({ s2 with cur_opcode := op } : CPU).frame_buffer p = 1 := by
      intro p hp
      show s2.frame_buffer p = 0 ∨ s2.frame_buffer p = 1
      rw [hfb2]
      exact hb p hp
    rcases dispatch_frame_buffer rnd _ s1 h with h1 | h1 | h1
    · intro p hp
      rw [h1]
      exact hb2 p hp
    · intro p hp
      rw [h1]
      left
      simp only [CLS, screen_pixel_count, screen_width, screen_height, Nat.reduceMul, if_pos hp]
    · exact DRW_Vx_Vy_binary _ s1 h1 hb2
  · cases h

/-- A run of `k` cycles that returns keeps a binary frame buffer binary. -/
theorem cycles_binary (k : Nat) : ∀ (rnd : Nat → Nat) (s s1 : CPU),
    cycles rnd k s = .ok s1 →
    (∀ p, p < 2048 → s.frame_buffer p = 0 ∨ s.frame_buffer p = 1) →
    ∀ p, p < 2048 → s1.frame_buffer p = 0 ∨ s1.frame_buffer p = 1 := by
  induction k with
  | zero =>
    intro rnd s s1 h hb
    simp only [cycles] at h
    cases h
    exact hb
  | succ k ih =>
    intro rnd s s1 h hb
    simp only [cycles] at h
    split at h
    · rename_i s2 h2
      exact ih _ _ _ h (cycle_binary _ _ _ h2 hb)
    · cases h

/-- C18 as stated fails: from an all-zero frame buffer the program `AFFF`, `6108`, `F155`
runs two cycles in range (`I = 0xFFF`, `V[1] = 8`, frame buffer still all zero), and the third
cycle stores `V[1]` at `ram[0x1000]`, outside the 4096-byte memory: that call of `cycle` has
no defined state after it, so none with a binary frame buffer. -/
theorem cycle_store_overrun_breaks_invariant :
    (∀ p, storeOverrunState.frame_buffer p = 0) ∧
    ∃ s2, cycles (fun _ => 0) 2 storeOverrunState = .ok s2 ∧
      (∀ p, s2.frame_buffer p = 0) ∧ s2.pc = 0x204 ∧ s2.I = 0xFFF ∧ s2.V 1 = 8 ∧
      s2.ram 0x204 = 0xF1 ∧ s2.ram 0x205 = 0x55 ∧
      cycle 0 s2 = .error .ram_oob ∧
      cycles (fun _ => 0) 3 storeOverrunState = .error .ram_oob ∧
      ¬ ∃ s3, cycle 0 s2 = .ok s3 ∧
        ∀ p, p < 2048 → s3.frame_buffer p = 0 ∨ s3.frame_buffer p = 1 := by
  have key : ∃ s2, cycles (fun _ => 0) 2 storeOverrunState = .ok s2 ∧
      (∀ p, s2.frame_buffer p = 0) ∧ s2.pc = 0x204 ∧ s2.I = 0xFFF ∧ s2.V 1 = 8 ∧
      s2.ram 0x204 = 0xF1 ∧ s2.ram 0x205 = 0x55 ∧
      cycle 0 s2 = .error .ram_oob :=
    ⟨_, rfl, fun _ => rfl, by decide, by decide, by decide, by decide, by decide, rfl⟩
  obtain ⟨s2, h1, h2, h3, h4, h5, h6, h7, h8⟩ := key
  refine ⟨fun _ => rfl, s2, h1, h2, h3, h4, h5, h6, h7, h8, rfl, ?_⟩
  rintro ⟨s3, h, -⟩
  rw [h8] at h
  cases h

/-- C18, amended: if every one of the 2048 frame-buffer cells is 0 or 1 before a call of
`cycle` all of whose array accesses are in range (the call returns a state, `.ok`), every cell
is 0 or 1 after it, whatever the opcode fetched; hence after any number of such in-range
cycles from a state with an all-zero frame buffer every cell is 0 or 1.  Nothing is said of a
cycle with an out-of-range access. -/
theorem frame_buffer_binary_invariant :
    (∀ (rnd : Nat) (s s1 : CPU), cycle rnd s = .ok s1 →
      (∀ p, p < 2048 → s.frame_buffer p = 0 ∨ s.frame_buffer p = 1) →
      ∀ p, p < 2048 → s1.frame_buffer p = 0 ∨ s1.frame_buffer p = 1) ∧
    (∀ (rnd : Nat → Nat) (k : Nat) (s s1 : CPU), cycles rnd k s = .ok s1 →
      (∀ p, p < 2048 → s.frame_buffer p = 0) →
      ∀ p, p < 2048 → s1.frame_buffer p = 0 ∨ s1.frame_buffer p = 1) :=
  ⟨cycle_binary, fun rnd k s s1 h h0 =>
    cycles_binary k rnd s s1 h (fun p hp => Or.inl (h0 p hp))⟩

/-- C18 amended, exercised: the cycle running `D011` on an all-zero frame buffer returns, lights the
cell of row 0, column 60, and leaves every cell 0 or 1. -/
theorem frame_buffer_binary_invariant_witness :
    (∀ p, p < 2048 → drawCycleState.frame_buffer p = 0) ∧
    ∃ s1, cycle 0 drawCycleState = .ok s1 ∧ s1.frame_buffer 60 = 1 ∧
      ∀ p, p < 2048 → s1.frame_buffer p = 0 ∨ s1.frame_buffer p = 1 := by
  have h0 : ∀ p, p < 2048 → drawCycleState.frame_buffer p = 0 := fun _ _ => rfl
  obtain ⟨s1, h1, h60⟩ : ∃ s1, cycle 0 drawCycleState = .ok s1 ∧ s1.frame_buffer 60 = 1 :=
    ⟨_, rfl, by decide⟩
  exact ⟨h0, s1, h1, h60,
    frame_buffer_binary_invariant.1 0 drawCycleState s1 h1 (fun p hp => Or.inl (h0 p hp))⟩

/-! ## C15, C19: the same sprite drawn twice -/

/-- Flipping the low bit of a byte twice gives the byte back. -/
theorem flip_flip (b : Nat) (hb : b < 256) : u8 (u8 (b ^^^ 1) ^^^ 1) = b := by
  have h1 : b ^^^ 1 < 256 := @Nat.xor_lt_two_pow _ _ 8 hb (by decide)
  rw [u8_of_lt h1, Nat.xor_assoc, Nat.xor_self, Nat.xor_zero, u8_of_lt hb]

/-- Two draws in succession with `x ≠ 0xF`, `y ≠ 0xF` and the sprite bytes inside the memory:
both return, and each flips the same set of cells, the second draw seeing the frame buffer
left by the first. -/
theorem DRW_twice_spec (s : CPU) (hI : s.I + s.cur_opcode.n ≤ 4096)
    (hx : s.cur_opcode.x ≠ 0xF) (hy : s.cur_opcode.y ≠ 0xF) :
    ∃ V1 fb1 V2 fb2,
      DRW_Vx_Vy s = .ok { s with V := V1, frame_buffer := fb1, should_redraw := true } ∧
      DRW_Vx_Vy { s with V := V1, frame_buffer := fb1, should_redraw := true }
        = .ok { s with V := V2, frame_buffer := fb2, should_redraw := true } ∧
      (∀ r c, c < 64 → fb1 (r * 64 + c) =
        if r < 32 ∧ s.V s.cur_opcode.y % 32 ≤ r ∧
            r < s.cur_opcode.n + s.V s.cur_opcode.y % 32 ∧
            s.V s.cur_opcode.x % 64 ≤ c ∧ c < 8 + s.V s.cur_opcode.x % 64 ∧
            (s.ram (s.I + (r - s.V s.cur_opcode.y % 32))
              &&& (0x80 >>> (c - s.V s.cur_opcode.x % 64))) > 0
        then u8 (s.frame_buffer (r * 64 + c) ^^^ 1) else s.frame_buffer (r * 64 + c)) ∧
      (∀ r c, c < 64 → fb2 (r * 64 + c) =
        if r < 32 ∧ s.V s.cur_opcode.y % 32 ≤ r ∧
            r < s.cur_opcode.n + s.V s.cur_opcode.y % 32 ∧
            s.V s.cur_opcode.x % 64 ≤ c ∧ c < 8 + s.V s.cur_opcode.x % 64 ∧
            (s.ram (s.I + (r - s.V s.cur_opcode.y % 32))
              &&& (0x80 >>> (c - s.V s.cur_opcode.x % 64))) > 0
        then u8 (fb1 (r * 64 + c) ^^^ 1) else fb1 (r * 64 + c)) ∧
      ((∃ r c, r < 32 ∧ c < 64 ∧ s.V s.cur_opcode.y % 32 ≤ r ∧
          r < s.cur_opcode.n + s.V s.cur_opcode.y % 32 ∧
          s.V s.cur_opcode.x % 64 ≤ c ∧ c < 8 + s.V s.cur_opcode.x % 64 ∧
          (s.ram (s.I + (r - s.V s.cur_opcode.y % 32))
            &&& (0x80 >>> (c - s.V s.cur_opcode.x % 64))) > 0 ∧
          fb1 (r * 64 + c) ≠ 0) → V2 0xF = 1) ∧
      ((¬ ∃ r c, r < 32 ∧ c < 64 ∧ s.V s.cur_opcode.y % 32 ≤ r ∧
          r < s.cur_opcode.n + s.V s.cur_opcode.y % 32 ∧
          s.V s.cur_opcode.x % 64 ≤ c ∧ c < 8 + s.V s.cur_opcode.x % 64 ∧
          (s.ram (s.I + (r - s.V s.cur_opcode.y % 32))
            &&& (0x80 >>> (c - s.V s.cur_opcode.x % 64))) > 0 ∧
          fb1 (r * 64 + c) ≠ 0) → V2 0xF = 0) := by
  obtain ⟨V1, fb1, h1, hfb1, hV1, -, -⟩ := DRW_Vx_Vy_spec s hI
  have ex : V1 s.cur_opcode.x = s.V s.cur_opcode.x := hV1 _ hx
  have ey : V1 s.cur_opcode.y = s.V s.cur_opcode.y := hV1 _ hy
  obtain ⟨V2, fb2, h2, hfb2, -, hFa, hFb⟩ :=
    DRW_Vx_Vy_spec { s with V := V1, frame_buffer := fb1, should_redraw := true }
      (by simp only; exact hI)
  simp only [ex, ey] at hfb2 hFa hFb
  exact ⟨V1, fb1, V2, fb2, h1, h2, hfb1, hfb2, hFa, hFb⟩

/-- C19: with `x ≠ 0xF`, `y ≠ 0xF` and `I + n ≤ 4096`, two executions of `DRW_Vx_Vy` in
succession both return and leave every frame-buffer cell with the value it had before the
first, whatever the frame buffer held and however the sprite is clipped. -/
theorem DRW_Vx_Vy_involution (s : CPU) (hwf : s.WF) (hI : s.I + s.cur_opcode.n ≤ 4096)
    (hx : s.cur_opcode.x ≠ 0xF) (hy : s.cur_opcode.y ≠ 0xF) :
    ∃ s1 s2, DRW_Vx_Vy s = .ok s1 ∧ DRW_Vx_Vy s1 = .ok s2 ∧
      ∀ p, s2.frame_buffer p = s.frame_buffer p := by
  obtain ⟨V1, fb1, V2, fb2, h1, h2, hfb1, hfb2, -, -⟩ := DRW_twice_spec s hI hx hy
  refine ⟨_, _, h1, h2, fun p => ?_⟩
  have e1 := hfb1 (p / 64) (p % 64) (Nat.mod_lt _ (by decide))
  have e2 := hfb2 (p / 64) (p % 64) (Nat.mod_lt _ (by decide))
  rw [Nat.div_add_mod'] at e1 e2
  show fb2 p = s.frame_buffer p
  rw [e2, e1]
  split_ifs
  · exact flip_flip _ (hwf.frame_buffer_lt p)
  · rfl

/-- Replacing the frame buffer by one with byte-sized cells keeps a state well-formed. -/
theorem WF_frame_buffer {s : CPU} (h : s.WF) (fb : Nat → Nat) (hfb : ∀ i, fb i < 256) :
    ({ s with frame_buffer := fb } : CPU).WF :=
  { V_lt := h.V_lt
    delay_timer_lt := h.delay_timer_lt
    sound_timer_lt := h.sound_timer_lt
    pc_lt := h.pc_lt
    I_lt := h.I_lt
    sp_lt := h.sp_lt
    stack_lt := h.stack_lt
    ram_lt := h.ram_lt
    frame_buffer_lt := hfb
    pixel_buffer_lt := h.pixel_buffer_lt
    keys_lt := h.keys_lt
    opcode_lt := h.opcode_lt }

theorem drawLitState_WF : drawLitState.WF := by
  have hram : ∀ i, (fun i => if i = 0x300 ∨ i = 0x301 then 0xFF else 0) i < 256 := by
    intro i
    simp only
    split_ifs <;> decide
  have hfb : ∀ i, (fun i => if i = 61 then 1 else 0) i < 256 := by
    intro i
    simp only
    split_ifs <;> decide
  exact WF_frame_buffer
    (mkCPU_WF (regs_lt (by decide) (by decide) (by decide)) (by decide) hram (by decide)) _ hfb

/-- C19, exercised: two rows `0xFF` drawn twice at column 60 over a frame buffer with the cell
of row 0, column 61 lit give the frame buffer back. -/
theorem DRW_Vx_Vy_involution_witness :
    drawLitState.frame_buffer 61 = 1 ∧
    ∃ s1 s2, DRW_Vx_Vy drawLitState = .ok s1 ∧ DRW_Vx_Vy s1 = .ok s2 ∧
      ∀ p, s2.frame_buffer p = drawLitState.frame_buffer p :=
  ⟨rfl, DRW_Vx_Vy_involution drawLitState drawLitState_WF (by decide) (by decide) (by decide)⟩

/-- The outer draw loop raises no fault other than the two kinds of array overrun it can
meet. -/
theorem DRW_rows_faults (vx vy : Nat) (k : Nat) : ∀ (y_coord : Nat) (s : CPU) (e : Fault),
    DRW_rows vx vy k y_coord s = .error e → e = .ram_oob ∨ e = .frame_buffer_oob := by
  induction k with
  | zero =>
    intro y_coord s e h
    simp only [DRW_rows] at h
    cases h
  | succ k ih =>
    intro y_coord s e h
    simp only [DRW_rows, screen_height] at h
    split_ifs at h with h1 h2
    · obtain ⟨V2, fb2, hrun2, -⟩ :=
        DRW_cols_spec (s.ram (s.I + y_coord)) (y_coord + vy) vx (by omega) 8 0 s
      rw [hrun2] at h
      exact ih _ _ _ h
    · cases h
      exact Or.inl rfl

/-- C20: for every state (every `V[x]`, `V[y]`, sprite height and sprite content),
`DRW_Vx_Vy` never faults on a frame-buffer access: each cell it reads or writes has index
`row * 64 + col < 2048`, the row loop breaking at `row ≥ 32` and the column loop skipping
`col ≥ 64`; the only fault it can raise is a sprite read outside the memory.  When the sprite
bytes lie inside the memory the draw returns, and every cell it has written (every cell whose
content differs afterwards) is a cell `(r, c)` with `V[y] % 32 ≤ r < 32` and
`V[x] % 64 ≤ c < 64`: no access leaves the frame or wraps into another row. -/
theorem DRW_Vx_Vy_frame_buffer_in_range (s : CPU) :
    DRW_Vx_Vy s ≠ .error .frame_buffer_oob ∧
    ((∃ s1, DRW_Vx_Vy s = .ok s1) ∨ DRW_Vx_Vy s = .error .ram_oob) ∧
    (s.I + s.cur_opcode.n ≤ 4096 →
      ∃ s1, DRW_Vx_Vy s = .ok s1 ∧
        ∀ r c, c < 64 → s1.frame_buffer (r * 64 + c) ≠ s.frame_buffer (r * 64 + c) →
          r < 32 ∧ s.V s.cur_opcode.y % 32 ≤ r ∧ s.V s.cur_opcode.x % 64 ≤ c ∧
          r * 64 + c < 2048) := by
  have hrows := DRW_rows_no_frame_fault (u8 (s.V s.cur_opcode.x % screen_width))
    (u8 (s.V s.cur_opcode.y % screen_height)) s.cur_opcode.n 0 { s with V := write s.V 0xF 0 }
  refine ⟨?_, ?_, fun hI => ?_⟩
  · simp only [DRW_Vx_Vy]
    split
    · exact fun h => by cases h
    · rename_i e he
      intro h
      cases h
      exact hrows he
  · simp only [DRW_Vx_Vy]
    split
    · exact Or.inl ⟨_, rfl⟩
    · rename_i e he
      rcases DRW_rows_faults _ _ _ _ _ _ he with h1 | h1
      · rw [h1]
        exact Or.inr rfl
      · rw [h1] at he
        exact absurd he hrows
  · obtain ⟨V1, fb1, hrun, hfb, -, -, -⟩ := DRW_Vx_Vy_spec s hI
    refine ⟨_, hrun, fun r c hc hne => ?_⟩
    have hcell := hfb r c hc
    by_cases hA : r < 32 ∧ s.V s.cur_opcode.y % 32 ≤ r ∧
        r < s.cur_opcode.n + s.V s.cur_opcode.y % 32 ∧
        s.V s.cur_opcode.x % 64 ≤ c ∧ c < 8 + s.V s.cur_opcode.x % 64 ∧
        (s.ram (s.I + (r - s.V s.cur_opcode.y % 32))
          &&& (0x80 >>> (c - s.V s.cur_opcode.x % 64))) > 0
    · exact ⟨hA.1, hA.2.1, hA.2.2.2.1, by omega⟩
    · rw [if_neg hA] at hcell
      exact absurd hcell hne

/-- C20, exercised: the row `0xFF` drawn at column 60, row 0 returns, and a cell it changed
can only be in row 0 .. 31 and column 60 .. 63. -/
theorem DRW_Vx_Vy_frame_buffer_in_range_witness :
    ∃ s1, DRW_Vx_Vy drawState = .ok s1 ∧
      ∀ r c, c < 64 → s1.frame_buffer (r * 64 + c) ≠ drawState.frame_buffer (r * 64 + c) →
        r < 32 ∧ 60 ≤ c ∧ r * 64 + c < 2048 := by
  obtain ⟨s1, h1, h2⟩ := (DRW_Vx_Vy_frame_buffer_in_range drawState).2.2 (by decide)
  have ex : drawState.V drawState.cur_opcode.x % 64 = 60 := by decide
  rw [ex] at h2
  exact ⟨s1, h1, fun r c hc hne => ⟨(h2 r c hc hne).1, (h2 r c hc hne).2.2.1,
    (h2 r c hc hne).2.2.2⟩⟩

/-- The bound check of the model is live: the inner draw loop run on row 32 faults at its
first set sprite bit. -/
theorem DRW_cols_row_32_faults :
    DRW_cols 0xFF 32 0 8 0 drawState = .error .frame_buffer_oob := rfl

end CPU

end Chip8
